import Mathlib

/-!
Verification development for the weinn-lister property-listing wizard
(`src/pages/ListProperty.tsx` and `src/lib/cloudinary.ts`).

The embedding translates the form-state model, the step validator, the
photo-upload handlers and the submission sequencer into pure Lean
definitions.  Persistence calls performed through the hosted-database
client are modelled by an explicit database value (lists of rows per
table), a fresh-identifier counter standing for the generated row ids,
and a failure oracle assigning to each successive persistence call an
optional error message (mirroring a rejected request).  Uploads to the
media host are modelled by each file carrying its upload outcome
(either the resulting URL or the error message of the failed request).
-/

/-- JavaScript price values reaching `price_lkr`: `null`, `NaN`, or a number.
In this flow numbers are integers (produced by `parsePriceInput`). -/
inductive PriceVal where
  | null : PriceVal
  | nan : PriceVal
  | num : Int → PriceVal
deriving DecidableEq

/-- Whether a price value is an actual number (neither `null` nor `NaN`). -/
def PriceVal.isNum : PriceVal → Bool
  | PriceVal.num _ => true
  | _ => false

/-- One room-type entry of `PropertyFormData.rooms`. -/
structure Room where
  room_type : String
  bed_type : String
  max_guests : Nat
  units_available : Nat
  facilities : List String
  price_lkr : PriceVal
  photos : List String
deriving DecidableEq

/-- The `PropertyFormData` state held by the wizard. -/
structure FormData where
  property_type : String
  name : String
  description : String
  street_address : String
  city : String
  state : String
  amenities : List (String × List String)
  rooms : List Room
  checkin_time : String
  checkout_time : String
  cancellation_policy : String
  photos : List String
deriving DecidableEq

/-- `MAX_PHOTOS` from `ListProperty.tsx`. -/
def MAX_PHOTOS : Nat := 20

/-- `MAX_ROOM_PHOTOS` from `ListProperty.tsx`. -/
def MAX_ROOM_PHOTOS : Nat := 15

/-- JavaScript `Array.prototype.map` with the element index, at base `n`. -/
def jsMapIdxGo (f : α → Nat → β) : Nat → List α → List β
  | _, [] => []
  | n, a :: as => f a n :: jsMapIdxGo f (n + 1) as

/-- JavaScript `arr.map((a, i) => f a i)`. -/
def jsMapIdx (f : α → Nat → β) (l : List α) : List β :=
  jsMapIdxGo f 0 l

/-- JavaScript `Array.prototype.filter` on the element index, at base `n`. -/
def jsFilterIdxGo (p : Nat → Bool) : Nat → List α → List α
  | _, [] => []
  | n, a :: as =>
    if p n then a :: jsFilterIdxGo p (n + 1) as else jsFilterIdxGo p (n + 1) as

/-- JavaScript `arr.filter((_, i) => p i)`. -/
def jsFilterIdx (p : Nat → Bool) (l : List α) : List α :=
  jsFilterIdxGo p 0 l

/-- JavaScript array indexing `arr[i]` (out-of-range and negative indices
yield `undefined`, modelled as `none`). -/
def jsGet (l : List α) (i : Int) : Option α :=
  if h : 0 ≤ i ∧ i.toNat < l.length then some (l.get ⟨i.toNat, h.2⟩) else none

/-- One field update `{ ...room, [field]: value }` used by `updateRoom`. -/
inductive RoomField where
  | room_type (v : String)
  | bed_type (v : String)
  | max_guests (v : Nat)
  | units_available (v : Nat)
  | facilities (v : List String)
  | price_lkr (v : PriceVal)
  | photos (v : List String)

/-- Apply one `{ ...room, [field]: value }` spread. -/
def setRoomField (r : Room) : RoomField → Room
  | RoomField.room_type v => { r with room_type := v }
  | RoomField.bed_type v => { r with bed_type := v }
  | RoomField.max_guests v => { r with max_guests := v }
  | RoomField.units_available v => { r with units_available := v }
  | RoomField.facilities v => { r with facilities := v }
  | RoomField.price_lkr v => { r with price_lkr := v }
  | RoomField.photos v => { r with photos := v }

/-- `addRoom` from `ListProperty.tsx`: append a room with default values. -/
def addRoom (fd : FormData) : FormData :=
  { fd with
    rooms := fd.rooms ++ [{ room_type := "", bed_type := "", max_guests := 1,
                            units_available := 1, facilities := [],
                            price_lkr := PriceVal.null, photos := [] }] }

/-- `updateRoom(index, field, value)` from `ListProperty.tsx`:
`rooms.map((room, i) => i === index ? { ...room, [field]: value } : room)`. -/
def updateRoom (fd : FormData) (index : Int) (fv : RoomField) : FormData :=
  { fd with
    rooms := jsMapIdx
      (fun room i => if (i : Int) = index then setRoomField room fv else room)
      fd.rooms }

/-- `removeRoom(index)` from `ListProperty.tsx`:
`rooms.filter((_, i) => i !== index)`. -/
def removeRoom (fd : FormData) (index : Int) : FormData :=
  { fd with rooms := jsFilterIdx (fun i => !((i : Int) = index)) fd.rooms }

/-- `removeRoomPhoto(roomIndex, photoIndex)` from `ListProperty.tsx`. -/
def removeRoomPhoto (fd : FormData) (roomIndex photoIndex : Int) : FormData :=
  match jsGet fd.rooms roomIndex with
  | none => fd
  | some room =>
    updateRoom fd roomIndex
      (RoomField.photos (jsFilterIdx (fun i => !((i : Int) = photoIndex)) room.photos))

/-- A toast notification (`variant: "destructive"` marks an error). -/
structure Toast where
  title : String
  description : String
  isError : Bool
deriving DecidableEq

/-- An upload file together with the outcome of its Cloudinary request:
`Except.ok url` on a 2xx response, `Except.error msg` otherwise
(`uploadImageToCloudinary` throws with the response detail). -/
abbrev UploadFile := Except String String

/-- `Promise.all(files.map(uploadImageToCloudinary))`: one failing file
rejects the whole batch with its error; otherwise all URLs are returned
in original file order. -/
def batchUpload : List UploadFile → Except String (List String)
  | [] => Except.ok []
  | Except.error e :: _ => Except.error e
  | Except.ok u :: rest =>
    match batchUpload rest with
    | Except.error e => Except.error e
    | Except.ok us => Except.ok (u :: us)

/-- Toast for an exceeded per-room photo limit (`handleRoomPhotoUpload`). -/
def roomLimitToast (currentPhotos : Nat) : Toast :=
  { title := "Upload limit exceeded",
    description := "You can only upload " ++ toString MAX_ROOM_PHOTOS ++
      " photos per room. Currently have " ++ toString currentPhotos ++ " photos.",
    isError := false }

/-- Toast shown after a successful room-photo batch upload. -/
def roomUploadedToast (n : Nat) : Toast :=
  { title := "Uploaded", description := toString n ++ " photo(s) uploaded to room.",
    isError := false }

/-- Toast shown when a room-photo batch upload fails. -/
def roomUploadFailedToast (e : String) : Toast :=
  { title := "Upload failed", description := e, isError := true }

/-- `handleRoomPhotoUpload(roomIndex, files)` from `ListProperty.tsx`:
guard on the per-room photo limit, then upload the whole batch and append
the URLs to the room's photos.  Returns the new form state and the toasts
fired. -/
def handleRoomPhotoUpload (fd : FormData) (roomIndex : Int)
    (files : List UploadFile) : FormData × List Toast :=
  match jsGet fd.rooms roomIndex with
  | none => (fd, [])
  | some room =>
    let currentPhotos := room.photos.length
    let newPhotosCount := files.length
    if MAX_ROOM_PHOTOS < currentPhotos + newPhotosCount then
      (fd, [roomLimitToast currentPhotos])
    else
      match batchUpload files with
      | Except.error e => (fd, [roomUploadFailedToast e])
      | Except.ok uploads =>
        (updateRoom fd roomIndex (RoomField.photos (room.photos ++ uploads)),
         [roomUploadedToast uploads.length])

/-- Toast for `remaining <= 0` on the property-photo input. -/
def limitReachedToast : Toast :=
  { title := "Limit reached",
    description := "You can upload up to " ++ toString MAX_PHOTOS ++ " photos.",
    isError := true }

/-- Toast for more selected files than remaining property-photo slots. -/
def tooManyFilesToast (remaining : Nat) : Toast :=
  { title := "Too many files",
    description := "Only " ++ toString remaining ++
      " more photo(s) can be uploaded (max " ++ toString MAX_PHOTOS ++ ").",
    isError := false }

/-- Toast shown after a successful property-photo batch upload. -/
def photosUploadedToast (n : Nat) : Toast :=
  { title := "Uploaded", description := toString n ++ " photo(s) uploaded.",
    isError := false }

/-- Toast shown when a property-photo batch upload fails. -/
def uploadFailedToast (e : String) : Toast :=
  { title := "Upload failed", description := e, isError := true }

/-- The `onChange` handler of the property-photo file input in `renderStep`
(step 2): cap the batch at the remaining slots below `MAX_PHOTOS`, warn when
files were dropped, then upload the capped batch and append the URLs. -/
def propertyPhotosOnChange (fd : FormData) (allFiles : List UploadFile) :
    FormData × List Toast :=
  if allFiles.length = 0 then (fd, [])
  else
    let remaining := MAX_PHOTOS - fd.photos.length
    if remaining = 0 then (fd, [limitReachedToast])
    else
      let files := allFiles.take remaining
      let warn : List Toast :=
        if remaining < allFiles.length then [tooManyFilesToast remaining] else []
      match batchUpload files with
      | Except.error e => (fd, warn ++ [uploadFailedToast e])
      | Except.ok uploads =>
        ({ fd with photos := fd.photos ++ uploads },
         warn ++ [photosUploadedToast uploads.length])

/-- The `disabled` condition of the Next button in `ListProperty`
(empty strings are the falsy field values here). -/
def nextDisabled (step : Nat) (fd : FormData) : Bool :=
  (step = 1 && fd.property_type = "") ||
  (step = 2 && (fd.name = "" || fd.street_address = "" ||
                fd.city = "" || fd.state = ""))

/-- `parsePriceInput` from `ListProperty.tsx`: strip every non-digit
character, return `null` when no digit remains, else the decimal number
the remaining digits denote. -/
def digitsToNat (ds : List Char) : Nat :=
  ds.foldl (fun n c => n * 10 + (c.toNat - 48)) 0

/-- `parsePriceInput` from `ListProperty.tsx`. -/
def parsePriceInput (input : String) : Option Nat :=
  let digitsOnly := input.toList.filter Char.isDigit
  if digitsOnly.length = 0 then none else some (digitsToNat digitsOnly)

/-- The character of a decimal digit value. -/
def digitChar : Nat → Char
  | 0 => '0'
  | 1 => '1'
  | 2 => '2'
  | 3 => '3'
  | 4 => '4'
  | 5 => '5'
  | 6 => '6'
  | 7 => '7'
  | 8 => '8'
  | 9 => '9'
  | _ => '0'

/-- Plain decimal rendering of a natural number (digit characters,
most-significant first). -/
def natToDecimal (n : Nat) : List Char :=
  if _h : n < 10 then [digitChar n]
  else natToDecimal (n / 10) ++ [digitChar (n % 10)]
termination_by n
decreasing_by
  exact Nat.div_lt_self (by omega) (by omega)

/-- A three-digit zero-padded group, for thousand grouping. -/
def pad3 (m : Nat) : List Char :=
  [digitChar (m / 100), digitChar (m / 10 % 10), digitChar (m % 10)]

/-- `formatWithThousandSeparators` from `ListProperty.tsx`:
`value.toLocaleString('en-US')` on a non-negative integer, i.e. decimal
digits grouped in threes from the right, groups joined by commas. -/
def formatWithThousandSeparators (n : Nat) : String :=
  if _h : n < 1000 then String.mk (natToDecimal n)
  else formatWithThousandSeparators (n / 1000) ++ "," ++ String.mk (pad3 (n % 1000))
termination_by n
decreasing_by
  exact Nat.div_lt_self (by omega) (by omega)

/-- A row of the `properties` table (timestamps as abstract instants). -/
structure PropertyRow where
  id : Nat
  user_id : Nat
  property_type : String
  name : String
  description : Option String
  street_address : String
  city : String
  state : String
  amenities : List (String × List String)
  checkin_time : Option String
  checkout_time : Option String
  cancellation_policy : Option String
  status : String
  created_at : Nat
  updated_at : Nat
deriving DecidableEq

/-- A row of the `property_rooms` table. -/
structure RoomRow where
  id : Nat
  property_id : Nat
  room_type : String
  bed_type : String
  max_guests : Nat
  units_available : Nat
  facilities : List String
  price_lkr : PriceVal
deriving DecidableEq

/-- A row of the `room_photos` table. -/
structure RoomPhotoRow where
  id : Nat
  room_id : Nat
  photo_url : String
  sort_order : Nat
deriving DecidableEq

/-- A row of the `property_photos` table. -/
structure PropPhotoRow where
  id : Nat
  property_id : Nat
  photo_url : String
  sort_order : Nat
deriving DecidableEq

/-- The hosted database: a list of rows per table. -/
structure DB where
  properties : List PropertyRow
  property_rooms : List RoomRow
  room_photos : List RoomPhotoRow
  property_photos : List PropPhotoRow
deriving DecidableEq

/-- The empty database. -/
def DB.empty : DB :=
  { properties := [], property_rooms := [], room_photos := [], property_photos := [] }

/-- Persistence-adapter state threaded through the submission sequencer:
the database, the next generated row identifier, and the number of
persistence calls issued so far (the index of the next call for the
failure oracle). -/
structure St where
  db : DB
  ctr : Nat
  calls : Nat
deriving DecidableEq

/-- A failure oracle: the outcome the persistence layer gives to the n-th
persistence call of this session (`some e` = the call fails with message
`e`, `none` = it succeeds). -/
abbrev Oracle := Nat → Option String

/-- The all-success oracle. -/
def allOk : Oracle := fun _ => none

/-- Issue one persistence call.  On success the database transform `f` is
applied (receiving the current counter as the base of the row ids it
generates) and `numIds` fresh identifiers are consumed; on failure the
database is untouched.  Either way the call is counted. -/
def doCall (oracle : Oracle) (numIds : Nat) (f : DB → Nat → DB) (s : St) :
    St × Option String :=
  match oracle s.calls with
  | some e => ({ s with calls := s.calls + 1 }, some e)
  | none =>
    ({ db := f s.db s.ctr, ctr := s.ctr + numIds, calls := s.calls + 1 }, none)

/-- The `properties` row built by the create-mode insert payload
(`status: 'published'`; timestamps from the database clock `now`). -/
def mkPropertyRow (pid userId now : Nat) (fd : FormData) : PropertyRow :=
  { id := pid, user_id := userId, property_type := fd.property_type,
    name := fd.name, description := some fd.description,
    street_address := fd.street_address, city := fd.city, state := fd.state,
    amenities := fd.amenities, checkin_time := some fd.checkin_time,
    checkout_time := some fd.checkout_time,
    cancellation_policy := some fd.cancellation_policy,
    status := "published", created_at := now, updated_at := now }

/-- The `property_rooms` row built from one form room. -/
def mkRoomRow (rid pid : Nat) (r : Room) : RoomRow :=
  { id := rid, property_id := pid, room_type := r.room_type,
    bed_type := r.bed_type, max_guests := r.max_guests,
    units_available := r.units_available, facilities := r.facilities,
    price_lkr := r.price_lkr }

/-- The bulk `property_rooms` insert payload: one row per form room, in
input order, with identifiers generated consecutively from `base`. -/
def mkRoomRows (pid base : Nat) (rooms : List Room) : List RoomRow :=
  jsMapIdx (fun r i => mkRoomRow (base + i) pid r) rooms

/-- The bulk `room_photos` insert payload for one saved room
(`sort_order` = the photo's position in the room's photo array). -/
def mkRoomPhotoRows (rid base : Nat) (photos : List String) : List RoomPhotoRow :=
  jsMapIdx (fun u j => { id := base + j, room_id := rid, photo_url := u,
                         sort_order := j }) photos

/-- The bulk `property_photos` insert payload
(`sort_order` = the photo's position in the photos array). -/
def mkPropPhotoRows (pid base : Nat) (photos : List String) : List PropPhotoRow :=
  jsMapIdx (fun u j => { id := base + j, property_id := pid, photo_url := u,
                         sort_order := j }) photos

/-- Database transform of the create-mode property insert. -/
def insProperty (userId now : Nat) (fd : FormData) (db : DB) (base : Nat) : DB :=
  { db with properties := db.properties ++ [mkPropertyRow base userId now fd] }

/-- The edit-mode property update applied to one row: every scalar form
field is overwritten (plus `updated_at`); `id`, `user_id`, `status` and
`created_at` are not part of the payload. -/
def applyUpdate (q : PropertyRow) (fd : FormData) (now : Nat) : PropertyRow :=
  { q with
    property_type := fd.property_type, name := fd.name,
    description := some fd.description, street_address := fd.street_address,
    city := fd.city, state := fd.state, amenities := fd.amenities,
    checkin_time := some fd.checkin_time, checkout_time := some fd.checkout_time,
    cancellation_policy := some fd.cancellation_policy, updated_at := now }

/-- Database transform of the edit-mode property update
(`update(...).eq('id', id)`). -/
def updProperty (pid now : Nat) (fd : FormData) (db : DB) (_base : Nat) : DB :=
  { db with
    properties :=
      db.properties.map (fun q => if q.id = pid then applyUpdate q fd now else q) }

/-- Database transform of `delete().eq('property_id', id)` on
`property_rooms`, including the `ON DELETE CASCADE` of their
`room_photos` enforced by the schema. -/
def delRoomsOf (pid : Nat) (db : DB) (_base : Nat) : DB :=
  let rids := (db.property_rooms.filter (fun r => r.property_id = pid)).map
    (fun r => r.id)
  { db with
    property_rooms := db.property_rooms.filter (fun r => !(r.property_id = pid)),
    room_photos := db.room_photos.filter (fun ph => !(rids.contains ph.room_id)) }

/-- Database transform of `delete().eq('property_id', id)` on
`property_photos`. -/
def delPropPhotosOf (pid : Nat) (db : DB) (_base : Nat) : DB :=
  { db with
    property_photos :=
      db.property_photos.filter (fun ph => !(ph.property_id = pid)) }

/-- Database transform of the bulk `property_rooms` insert. -/
def insRooms (pid : Nat) (rooms : List Room) (db : DB) (base : Nat) : DB :=
  { db with property_rooms := db.property_rooms ++ mkRoomRows pid base rooms }

/-- Database transform of one bulk `room_photos` insert. -/
def insRoomPhotos (rid : Nat) (photos : List String) (db : DB) (base : Nat) : DB :=
  { db with room_photos := db.room_photos ++ mkRoomPhotoRows rid base photos }

/-- Database transform of the bulk `property_photos` insert. -/
def insPropPhotos (pid : Nat) (photos : List String) (db : DB) (base : Nat) : DB :=
  { db with property_photos := db.property_photos ++ mkPropPhotoRows pid base photos }

/-- The room-photo loop of `handleSubmit` (identical in create and edit
mode): for the i-th form room, paired with the i-th saved room row (whose
generated id is `base + i`), bulk-insert its photo rows when it has any.
A failing insert is only logged (`console.error`) — the loop continues
and nothing is thrown. -/
def roomPhotosLoop (oracle : Oracle) : Nat → List Room → St → St
  | _, [], s => s
  | base, room :: rest, s =>
    if 0 < room.photos.length then
      let c := doCall oracle room.photos.length (insRoomPhotos base room.photos) s
      roomPhotosLoop oracle (base + 1) rest c.1
    else roomPhotosLoop oracle (base + 1) rest s

/-- The "create rooms" block of `handleSubmit`, shared verbatim by create
and edit mode: when the form has rooms, bulk-insert the room rows (a
failure here is thrown) and then run the room-photo loop. -/
def roomsBlock (oracle : Oracle) (pid : Nat) (fd : FormData) (s : St) :
    St × Option String :=
  if 0 < fd.rooms.length then
    match doCall oracle fd.rooms.length (insRooms pid fd.rooms) s with
    | (s1, some e) => (s1, some e)
    | (s1, none) => (roomPhotosLoop oracle s.ctr fd.rooms s1, none)
  else (s, none)

/-- The "create property photos" block of `handleSubmit`, shared by create
and edit mode: when the form has property photos, bulk-insert their rows
(a failure here is thrown). -/
def propPhotosBlock (oracle : Oracle) (pid : Nat) (fd : FormData) (s : St) :
    St × Option String :=
  if 0 < fd.photos.length then
    match doCall oracle fd.photos.length (insPropPhotos pid fd.photos) s with
    | (s1, some e) => (s1, some e)
    | (s1, none) => (s1, none)
  else (s, none)

/-- The error toast of the submit `catch` block (it surfaces
`error.message`). -/
def submitErrorToast (e : String) : Toast :=
  { title := "Error", description := e, isError := true }

/-- Success toast of create mode. -/
def listedToast : Toast :=
  { title := "Property Listed Successfully!",
    description := "Your property has been listed and is now live.",
    isError := false }

/-- Success toast of edit mode. -/
def updatedToast : Toast :=
  { title := "Property Updated Successfully!",
    description := "Your property has been updated.", isError := false }

/-- Toast of the room-price validation failure. -/
def missingPriceToast : Toast :=
  { title := "Missing price",
    description := "Please enter a Price per Unit (LKR) for all rooms.",
    isError := true }

/-- Create-mode body of `handleSubmit`: insert the property (status forced
to published), then the rooms block, then the property photos, reporting
either the thrown error or the success toast. -/
def runCreate (oracle : Oracle) (userId now : Nat) (fd : FormData) (s0 : St) :
    St × Toast :=
  let pid := s0.ctr
  match doCall oracle 1 (insProperty userId now fd) s0 with
  | (s1, some e) => (s1, submitErrorToast e)
  | (s1, none) =>
    match roomsBlock oracle pid fd s1 with
    | (s2, some e) => (s2, submitErrorToast e)
    | (s2, none) =>
      match propPhotosBlock oracle pid fd s2 with
      | (s3, some e) => (s3, submitErrorToast e)
      | (s3, none) => (s3, listedToast)

/-- Edit-mode body of `handleSubmit`: update the property row in place,
delete its rooms (cascading to their photos), recreate rooms and room
photos, delete and recreate the property photos. -/
def runEdit (oracle : Oracle) (pid now : Nat) (fd : FormData) (s0 : St) :
    St × Toast :=
  match doCall oracle 0 (updProperty pid now fd) s0 with
  | (s1, some e) => (s1, submitErrorToast e)
  | (s1, none) =>
    match doCall oracle 0 (delRoomsOf pid) s1 with
    | (s2, some e) => (s2, submitErrorToast e)
    | (s2, none) =>
      match roomsBlock oracle pid fd s2 with
      | (s3, some e) => (s3, submitErrorToast e)
      | (s3, none) =>
        match doCall oracle 0 (delPropPhotosOf pid) s3 with
        | (s4, some e) => (s4, submitErrorToast e)
        | (s4, none) =>
          match propPhotosBlock oracle pid fd s4 with
          | (s5, some e) => (s5, submitErrorToast e)
          | (s5, none) => (s5, updatedToast)

/-- The room-price validation of `handleSubmit`: every room must carry an
actual number (neither `null` nor `NaN`). -/
def pricesOk (fd : FormData) : Bool :=
  fd.rooms.all (fun r => r.price_lkr.isNum)

/-- `handleSubmit` from `ListProperty.tsx`: validate room prices first
(returning before any persistence call on failure), then run the create
or edit sequence (`editId = some pid` is edit mode).  Returns the final
persistence state and the toasts fired. -/
def handleSubmit (oracle : Oracle) (userId now : Nat) (editId : Option Nat)
    (fd : FormData) (s0 : St) : St × List Toast :=
  if pricesOk fd then
    match editId with
    | some pid =>
      let r := runEdit oracle pid now fd s0
      (r.1, [r.2])
    | none =>
      let r := runCreate oracle userId now fd s0
      (r.1, [r.2])
  else (s0, [missingPriceToast])

/-- Rows of `property_rooms` belonging to one property, in table order
(`loadPropertyData` fetches them ordered by creation). -/
def roomsOf (db : DB) (pid : Nat) : List RoomRow :=
  db.property_rooms.filter (fun r => r.property_id = pid)

/-- Rows of `room_photos` belonging to one room, in table order. -/
def roomPhotosOf (db : DB) (rid : Nat) : List RoomPhotoRow :=
  db.room_photos.filter (fun ph => ph.room_id = rid)

/-- Rows of `property_photos` belonging to one property, in table order. -/
def propPhotosOf (db : DB) (pid : Nat) : List PropPhotoRow :=
  db.property_photos.filter (fun ph => ph.property_id = pid)

/-- `loadPropertyData`'s conversion of one fetched room row (with its
photo rows) into a form room: the photo URLs are kept, ids and sort
orders are dropped. -/
def roomToForm (r : RoomRow) (phs : List RoomPhotoRow) : Room :=
  { room_type := r.room_type, bed_type := r.bed_type,
    max_guests := r.max_guests, units_available := r.units_available,
    facilities := r.facilities, price_lkr := r.price_lkr,
    photos := phs.map (fun ph => ph.photo_url) }

/-- `loadPropertyData` from `ListProperty.tsx`, applied to the fetched
property row `p` inside database `db`: rehydrate the form state, mapping
nullable columns to `''` (`propertyData.description || ''` and likewise
for the times and the cancellation policy). -/
def loadPropertyData (db : DB) (p : PropertyRow) : FormData :=
  { property_type := p.property_type, name := p.name,
    description := p.description.getD "",
    street_address := p.street_address, city := p.city, state := p.state,
    amenities := p.amenities,
    rooms := (roomsOf db p.id).map (fun r => roomToForm r (roomPhotosOf db r.id)),
    checkin_time := p.checkin_time.getD "",
    checkout_time := p.checkout_time.getD "",
    cancellation_policy := p.cancellation_policy.getD "",
    photos := (propPhotosOf db p.id).map (fun ph => ph.photo_url) }

/-- The (room_id, photo_url, sort_order) content of a `room_photos` row. -/
def rpProj (ph : RoomPhotoRow) : Nat × String × Nat :=
  (ph.room_id, ph.photo_url, ph.sort_order)

/-- The (property_id, photo_url, sort_order) content of a
`property_photos` row. -/
def ppProj (ph : PropPhotoRow) : Nat × String × Nat :=
  (ph.property_id, ph.photo_url, ph.sort_order)

/-- The content of a `property_rooms` row apart from its generated id and
its parent reference. -/
def roomContent (r : RoomRow) : String × String × Nat × Nat × List String × PriceVal :=
  (r.room_type, r.bed_type, r.max_guests, r.units_available, r.facilities,
   r.price_lkr)

/-- Expected (room_id, photo_url, sort_order) triples of the room photos
persisted for a room list whose saved rooms have consecutive ids from
`base`: for each room, its photos in file order with sort orders 0, 1, …. -/
def allRoomPhotoTriples (base : Nat) : List Room → List (Nat × String × Nat)
  | [] => []
  | r :: rs =>
    jsMapIdx (fun u j => (base, u, j)) r.photos ++ allRoomPhotoTriples (base + 1) rs

/-- The `room_photos` rows appended by the room-photo loop when every
insert succeeds, with row ids generated from `ctr`. -/
def expRoomPhotoRows (base ctr : Nat) : List Room → List RoomPhotoRow
  | [] => []
  | r :: rs =>
    mkRoomPhotoRows base ctr r.photos ++
      expRoomPhotoRows (base + 1) (ctr + r.photos.length) rs

/-- Total number of room photos across a room list. -/
def totalRoomPhotos : List Room → Nat
  | [] => 0
  | r :: rs => r.photos.length + totalRoomPhotos rs

/-- Number of rooms that carry at least one photo (each issues one
persistence call in the room-photo loop). -/
def photoCallCount (rooms : List Room) : Nat :=
  (rooms.filter (fun r => 0 < r.photos.length)).length

/-- Relative position of the property-photos insert call within the
create-mode sequence (call 0 is the property insert). -/
def createPhotoPos (fd : FormData) : Nat :=
  1 + (if 0 < fd.rooms.length then 1 + photoCallCount fd.rooms else 0)

/-- Relative position of the property-photos delete call within the
edit-mode sequence (call 0 update, call 1 room delete). -/
def editDelPhotosPos (fd : FormData) : Nat :=
  2 + (if 0 < fd.rooms.length then 1 + photoCallCount fd.rooms else 0)

/-- Some create-mode step whose failure is thrown (property insert, rooms
insert, property-photos insert — not the room-photo inserts) fails under
this oracle. -/
def createThrowFails (oracle : Oracle) (k0 : Nat) (fd : FormData) : Prop :=
  oracle k0 ≠ none ∨
  (0 < fd.rooms.length ∧ oracle (k0 + 1) ≠ none) ∨
  (0 < fd.photos.length ∧ oracle (k0 + createPhotoPos fd) ≠ none)

/-- Some edit-mode step whose failure is thrown (property update, room
delete, rooms insert, property-photos delete, property-photos insert —
not the room-photo inserts) fails under this oracle. -/
def editThrowFails (oracle : Oracle) (k0 : Nat) (fd : FormData) : Prop :=
  oracle k0 ≠ none ∨ oracle (k0 + 1) ≠ none ∨
  (0 < fd.rooms.length ∧ oracle (k0 + 2) ≠ none) ∨
  oracle (k0 + editDelPhotosPos fd) ≠ none ∨
  (0 < fd.photos.length ∧ oracle (k0 + editDelPhotosPos fd + 1) ≠ none)

/-! Concrete fixtures used to instantiate the theorems below. -/

/-- The initial wizard form state (`useState` initializer). -/
def emptyForm : FormData :=
  { property_type := "", name := "", description := "", street_address := "",
    city := "", state := "", amenities := [], rooms := [], checkin_time := "",
    checkout_time := "", cancellation_policy := "", photos := [] }

/-- An initial persistence state over the empty database. -/
def stEmpty : St := { db := DB.empty, ctr := 0, calls := 0 }

/-- `k` distinct photo URLs. -/
def photoUrls (k : Nat) : List String :=
  (List.range k).map (fun m => "p" ++ toString m)

/-- A room already holding 14 photos (one slot below `MAX_ROOM_PHOTOS`). -/
def cexRoom14 : Room :=
  { room_type := "Std", bed_type := "Double", max_guests := 2,
    units_available := 1, facilities := [], price_lkr := PriceVal.num 100,
    photos := photoUrls 14 }

/-- Form state with the single 14-photo room. -/
def cexForm14 : FormData := { emptyForm with rooms := [cexRoom14] }

/-- A room with two photos "a" and "b". -/
def cexRoomAB : Room :=
  { room_type := "Std", bed_type := "Double", max_guests := 2,
    units_available := 1, facilities := [], price_lkr := PriceVal.num 100,
    photos := ["a", "b"] }

/-- Form state with the single two-photo room. -/
def cexFormAB : FormData := { emptyForm with rooms := [cexRoomAB] }

/-- Form state with one one-photo room and one property photo (its create
submission issues four persistence calls: property, rooms, room photos,
property photos). -/
def cexFormC2 : FormData :=
  { emptyForm with
    rooms := [{ room_type := "Std", bed_type := "Double", max_guests := 2,
                units_available := 1, facilities := [],
                price_lkr := PriceVal.num 100, photos := ["r1"] }],
    photos := ["pp1"] }

/-- Oracle failing exactly the third persistence call (index 2), which in
`cexFormC2`'s create submission is the room-photo bulk insert. -/
def cexOracleC2 : Oracle := fun k => if k = 2 then some "boom" else none

/-- A stored property row whose nullable `description` column is null. -/
def cexProp : PropertyRow :=
  { id := 0, user_id := 9, property_type := "Hotel", name := "Inn",
    description := none, street_address := "1 Beach Rd", city := "Galle",
    state := "Southern", amenities := [],
    checkin_time := some "14:00", checkout_time := some "11:00",
    cancellation_policy := some "Free", status := "published",
    created_at := 50, updated_at := 50 }

/-- Database holding `cexProp` with one room, one room photo and one
property photo. -/
def cexDb : DB :=
  { properties := [cexProp],
    property_rooms := [{ id := 1, property_id := 0, room_type := "Std",
                         bed_type := "Double", max_guests := 2,
                         units_available := 3, facilities := ["Wifi"],
                         price_lkr := PriceVal.num 15000 }],
    room_photos := [{ id := 2, room_id := 1, photo_url := "r1", sort_order := 0 }],
    property_photos := [{ id := 3, property_id := 0, photo_url := "q1",
                          sort_order := 0 }] }

/-- The same stored property but with every nullable column non-null. -/
def witProp : PropertyRow := { cexProp with description := some "Nice" }

/-- Database holding `witProp` with the same children as `cexDb`. -/
def witDb : DB := { cexDb with properties := [witProp] }

/-! ## List and indexing lemmas -/

theorem jsMapIdxGo_length (f : α → Nat → β) (n : Nat) (l : List α) :
    (jsMapIdxGo f n l).length = l.length := by
  induction l generalizing n with
  | nil => rfl
  | cons a as ih => simp [jsMapIdxGo, ih]

theorem jsMapIdxGo_map (g : β → γ) (f : α → Nat → β) (n : Nat) (l : List α) :
    (jsMapIdxGo f n l).map g = jsMapIdxGo (fun a i => g (f a i)) n l := by
  induction l generalizing n with
  | nil => rfl
  | cons a as ih => simp [jsMapIdxGo, ih]

theorem jsMapIdxGo_noIdx (g : α → β) (n : Nat) (l : List α) :
    jsMapIdxGo (fun a _ => g a) n l = l.map g := by
  induction l generalizing n with
  | nil => rfl
  | cons a as ih => simp [jsMapIdxGo, ih]

theorem jsMapIdxGo_id (f : α → Nat → α) (n : Nat) (l : List α)
    (h : ∀ i a, n ≤ i → i < n + l.length → f a i = a) : jsMapIdxGo f n l = l := by
  induction l generalizing n with
  | nil => rfl
  | cons a as ih =>
    simp only [jsMapIdxGo]
    rw [h n a (Nat.le_refl n) (by simp), ih (n + 1) (fun i a hi hi2 => h i a (by omega) (by simpa using by omega))]

theorem jsMapIdxGo_mem (f : α → Nat → β) (n : Nat) (l : List α) (b : β)
    (hb : b ∈ jsMapIdxGo f n l) :
    ∃ a i, a ∈ l ∧ n ≤ i ∧ b = f a i := by
  induction l generalizing n with
  | nil => simp [jsMapIdxGo] at hb
  | cons a as ih =>
    simp only [jsMapIdxGo, List.mem_cons] at hb
    rcases hb with hb | hb
    · exact ⟨a, n, by simp, Nat.le_refl n, hb⟩
    · rcases ih (n + 1) hb with ⟨a', i, ha', hi, hbe⟩
      exact ⟨a', i, by simp [ha'], by omega, hbe⟩

theorem jsMapIdxGo_get (f : α → Nat → β) (n : Nat) (l : List α) (k : Nat)
    (hk : k < l.length) (hk2 : k < (jsMapIdxGo f n l).length) :
    (jsMapIdxGo f n l).get ⟨k, hk2⟩ = f (l.get ⟨k, hk⟩) (n + k) := by
  induction l generalizing n k with
  | nil => simp at hk
  | cons a as ih =>
    match k with
    | 0 => rfl
    | k + 1 =>
      have hk' : k < as.length := by simpa using hk
      have hk2' : k < (jsMapIdxGo f (n + 1) as).length := by
        rw [jsMapIdxGo_length]; exact hk'
      have := ih (n + 1) k hk' hk2'
      simp only [jsMapIdxGo, List.get_cons_succ]
      rw [this]; ring_nf

theorem jsFilterIdxGo_id (p : Nat → Bool) (n : Nat) (l : List α)
    (h : ∀ i, n ≤ i → i < n + l.length → p i = true) : jsFilterIdxGo p n l = l := by
  induction l generalizing n with
  | nil => rfl
  | cons a as ih =>
    simp only [jsFilterIdxGo]
    rw [if_pos (h n (Nat.le_refl n) (by simp)),
      ih (n + 1) (fun i hi hi2 => h i (by omega) (by simp; omega))]

theorem jsGet_none (l : List α) (i : Int)
    (h : i < 0 ∨ (l.length : Int) ≤ i) : jsGet l i = none := by
  unfold jsGet
  rw [dif_neg]
  rintro ⟨h1, h2⟩
  omega

theorem jsGet_some (l : List α) (i : Int) (a : α) (h : jsGet l i = some a) :
    0 ≤ i ∧ i.toNat < l.length := by
  unfold jsGet at h
  by_cases hc : 0 ≤ i ∧ i.toNat < l.length
  · exact hc
  · rw [dif_neg hc] at h; cases h

/-! ## Out-of-range room operations (C10) -/

theorem updateRoom_out (fd : FormData) (i : Int) (fv : RoomField)
    (h : i < 0 ∨ (fd.rooms.length : Int) ≤ i) : updateRoom fd i fv = fd := by
  have : jsMapIdx
      (fun room k => if (k : Int) = i then setRoomField room fv else room)
      fd.rooms = fd.rooms := by
    apply jsMapIdxGo_id
    intro k a hk hk2
    rw [if_neg]
    omega
  simp [updateRoom, this]

/-- Claim C10: `updateRoom`, `removeRoom`, `handleRoomPhotoUpload` and
`removeRoomPhoto` at a room index outside `0 .. rooms.length - 1` leave
the form state unchanged and fire no toast: the out-of-range index is a
no-op, never an error or a crash. -/
theorem claim_C10_out_of_range_noop (fd : FormData) (i : Int) (fv : RoomField)
    (files : List UploadFile) (j : Int)
    (h : i < 0 ∨ (fd.rooms.length : Int) ≤ i) :
    updateRoom fd i fv = fd ∧ removeRoom fd i = fd ∧
    handleRoomPhotoUpload fd i files = (fd, []) ∧
    removeRoomPhoto fd i j = fd := by
  refine ⟨updateRoom_out fd i fv h, ?_, ?_, ?_⟩
  · have : jsFilterIdx (fun k => !((k : Int) = i)) fd.rooms = fd.rooms := by
      apply jsFilterIdxGo_id
      intro k hk hk2
      simp only [Bool.not_eq_true']
      rw [decide_eq_false_iff_not]
      omega
    simp [removeRoom, this]
  · simp [handleRoomPhotoUpload, jsGet_none fd.rooms i h]
  · simp [removeRoomPhoto, jsGet_none fd.rooms i h]

/-- Witness for C10 at a concrete out-of-range index. -/
theorem claim_C10_witness :
    ((5 : Int) < 0 ∨ ((addRoom
        { property_type := "", name := "", description := "",
          street_address := "", city := "", state := "", amenities := [],
          rooms := [], checkin_time := "", checkout_time := "",
          cancellation_policy := "", photos := [] }).rooms.length : Int) ≤ 5) ∧
    updateRoom (addRoom
        { property_type := "", name := "", description := "",
          street_address := "", city := "", state := "", amenities := [],
          rooms := [], checkin_time := "", checkout_time := "",
          cancellation_policy := "", photos := [] }) 5 (RoomField.bed_type "King") =
      addRoom
        { property_type := "", name := "", description := "",
          street_address := "", city := "", state := "", amenities := [],
          rooms := [], checkin_time := "", checkout_time := "",
          cancellation_policy := "", photos := [] } := by
  refine ⟨by decide, ?_⟩
  exact (claim_C10_out_of_range_noop _ 5 (RoomField.bed_type "King") [] 0
    (by decide)).1

/-! ## Step validator (C7) -/

/-- Claim C7: forward navigation from the core-details step (step 2) is
permitted iff name, street address, city and state are all non-empty; with
the other required fields set it is blocked exactly when city is empty and
unblocked by filling city alone; the property-type step (step 1) requires
a selected type, and the amenities, rooms and policies steps (3, 4, 5)
have no forward gate. -/
theorem claim_C7_step_gates (fd : FormData) :
    (nextDisabled 1 fd = false ↔ fd.property_type ≠ "") ∧
    (nextDisabled 2 fd = false ↔
      (fd.name ≠ "" ∧ fd.street_address ≠ "" ∧ fd.city ≠ "" ∧ fd.state ≠ "")) ∧
    (fd.name ≠ "" → fd.street_address ≠ "" → fd.state ≠ "" →
      (nextDisabled 2 fd = true ↔ fd.city = "")) ∧
    nextDisabled 3 fd = false ∧ nextDisabled 4 fd = false ∧
    nextDisabled 5 fd = false := by
  simp only [nextDisabled, Bool.or_eq_false_iff, Bool.and_eq_false_iff,
    Bool.or_eq_true, Bool.and_eq_true, decide_eq_false_iff_not,
    decide_eq_true_eq]
  refine ⟨?_, ?_, ?_, ?_, ?_, ?_⟩ <;> simp <;> tauto

/-- Witness for C7: with name, address and state set, an empty city blocks
the core-details gate. -/
theorem claim_C7_witness :
    nextDisabled 2
      { property_type := "Hotel", name := "Seaside Inn", description := "",
        street_address := "1 Beach Rd", city := "", state := "Southern",
        amenities := [], rooms := [], checkin_time := "", checkout_time := "",
        cancellation_policy := "", photos := [] } = true := by
  exact ((claim_C7_step_gates _).2.2.1 (by decide) (by decide) (by decide)).mpr
    (by decide)

/-! ## Price parsing and formatting (C9) -/

theorem digitChar_isDigit (d : Nat) (h : d < 10) : (digitChar d).isDigit = true := by
  interval_cases d <;> decide

theorem digitChar_val (d : Nat) (h : d < 10) : (digitChar d).toNat - 48 = d := by
  interval_cases d <;> decide

theorem digitsToNat_foldl_init (l : List Char) (a : Nat) :
    l.foldl (fun n c => n * 10 + (c.toNat - 48)) a =
      a * 10 ^ l.length + digitsToNat l := by
  induction l generalizing a with
  | nil => simp [digitsToNat]
  | cons c cs ih =>
    simp only [List.foldl_cons, digitsToNat, List.length_cons]
    rw [ih (a * 10 + (c.toNat - 48)), ih (0 * 10 + (c.toNat - 48))]
    ring

theorem digitsToNat_append (l1 l2 : List Char) :
    digitsToNat (l1 ++ l2) = digitsToNat l1 * 10 ^ l2.length + digitsToNat l2 := by
  unfold digitsToNat
  rw [List.foldl_append]
  exact digitsToNat_foldl_init l2 _

theorem natToDecimal_ne_nil (n : Nat) : natToDecimal n ≠ [] := by
  rw [natToDecimal]
  split
  · simp
  · simp

theorem natToDecimal_digits (n : Nat) :
    ∀ c ∈ natToDecimal n, c.isDigit = true := by
  induction n using Nat.strong_induction_on with
  | _ n ih =>
    rw [natToDecimal]
    split
    · intro c hc
      simp only [List.mem_singleton] at hc
      subst hc
      exact digitChar_isDigit n (by omega)
    · intro c hc
      rcases List.mem_append.1 hc with hc | hc
      · exact ih (n / 10) (Nat.div_lt_self (by omega) (by omega)) c hc
      · simp only [List.mem_singleton] at hc
        subst hc
        exact digitChar_isDigit _ (Nat.mod_lt _ (by omega))

theorem digitsToNat_natToDecimal (n : Nat) :
    digitsToNat (natToDecimal n) = n := by
  induction n using Nat.strong_induction_on with
  | _ n ih =>
    rw [natToDecimal]
    split
    · rename_i h
      show digitsToNat [digitChar n] = n
      simp [digitsToNat, digitChar_val n h]
    · rename_i h
      rw [digitsToNat_append]
      rw [ih (n / 10) (Nat.div_lt_self (by omega) (by omega))]
      simp only [List.length_singleton, pow_one]
      show n / 10 * 10 + digitsToNat [digitChar (n % 10)] = n
      simp [digitsToNat, digitChar_val _ (Nat.mod_lt _ (by omega))]
      omega

theorem natToDecimal_split1000 (n : Nat) (h : 1000 ≤ n) :
    natToDecimal n = natToDecimal (n / 1000) ++ pad3 (n % 1000) := by
  have h1 : ¬n < 10 := by omega
  have h2 : ¬n / 10 < 10 := by omega
  have h3 : ¬n / 10 / 10 < 10 := by
    have : n / 10 / 10 = n / 100 := by
      rw [Nat.div_div_eq_div_mul]
    omega
  conv_lhs => rw [natToDecimal]
  rw [dif_neg h1]
  conv_lhs => rw [natToDecimal]
  rw [dif_neg h2]
  conv_lhs => rw [natToDecimal]
  rw [dif_neg h3]
  have e1 : n / 10 / 10 / 10 = n / 1000 := by
    rw [Nat.div_div_eq_div_mul, Nat.div_div_eq_div_mul]
  have e2 : n / 10 / 10 % 10 = n % 1000 / 100 := by
    rw [Nat.div_div_eq_div_mul]
    omega
  have e3 : n / 10 % 10 = n % 1000 / 10 % 10 := by omega
  have e4 : n % 10 = n % 1000 % 10 := by omega
  rw [e1, e2, e3, e4]
  simp [pad3]

theorem format_digits (n : Nat) :
    (formatWithThousandSeparators n).toList.filter Char.isDigit = natToDecimal n := by
  induction n using Nat.strong_induction_on with
  | _ n ih =>
    rw [formatWithThousandSeparators]
    split
    · rename_i h
      show (natToDecimal n).filter Char.isDigit = natToDecimal n
      exact List.filter_eq_self.2 (natToDecimal_digits n)
    · rename_i h
      have hlt : n / 1000 < n := Nat.div_lt_self (by omega) (by omega)
      have hm : n % 1000 < 1000 := Nat.mod_lt _ (by omega)
      have hstr : (formatWithThousandSeparators (n / 1000) ++ "," ++
          String.mk (pad3 (n % 1000))).toList =
          (formatWithThousandSeparators (n / 1000)).toList ++ [','] ++
            pad3 (n % 1000) := by
        simp [String.toList]
      rw [hstr]
      rw [List.filter_append, List.filter_append]
      rw [ih (n / 1000) hlt]
      have hcomma : List.filter Char.isDigit [','] = [] := by decide
      have hpad : (pad3 (n % 1000)).filter Char.isDigit = pad3 (n % 1000) := by
        apply List.filter_eq_self.2
        intro c hc
        simp only [pad3, List.mem_cons, List.not_mem_nil, or_false] at hc
        rcases hc with hc | hc | hc <;> subst hc <;>
          exact digitChar_isDigit _ (by omega)
      rw [hcomma, hpad, List.append_nil]
      exact (natToDecimal_split1000 n (by omega)).symm

/-- Claim C9: `parsePriceInput` returns `null` exactly when the input has
no decimal digit; otherwise it returns the non-negative integer formed by
the input's digits in order; consequently formatting any non-negative
integer with thousand separators and parsing it back is the identity, and
no negative or fractional value is constructible through this path. -/
theorem claim_C9_parse_price (s : String) (n : Nat) :
    (parsePriceInput s = none ↔ ∀ c ∈ s.toList, c.isDigit = false) ∧
    (∀ m, parsePriceInput s = some m →
      m = digitsToNat (s.toList.filter Char.isDigit)) ∧
    parsePriceInput (formatWithThousandSeparators n) = some n := by
  refine ⟨?_, ?_, ?_⟩
  · unfold parsePriceInput
    constructor
    · intro h c hc
      by_cases hl : (s.toList.filter Char.isDigit).length = 0
      · rw [List.length_eq_zero, List.filter_eq_nil_iff] at hl
        simpa using hl c hc
      · rw [if_neg hl] at h
        cases h
    · intro h
      rw [if_pos]
      rw [List.length_eq_zero, List.filter_eq_nil_iff]
      intro c hc
      simp [h c hc]
  · intro m hm
    unfold parsePriceInput at hm
    by_cases hl : (s.toList.filter Char.isDigit).length = 0
    · rw [if_pos hl] at hm
      cases hm
    · rw [if_neg hl] at hm
      exact (Option.some_injective _ hm).symm
  · unfold parsePriceInput
    rw [format_digits n]
    rw [if_neg (by simpa using natToDecimal_ne_nil n)]
    rw [digitsToNat_natToDecimal]

/-- Witness for C9 at a concrete string and number. -/
theorem claim_C9_witness :
    parsePriceInput "Rs. 1a2b" = some 12 ∧
    parsePriceInput (formatWithThousandSeparators 1234567) = some 1234567 := by
  exact ⟨by decide, (claim_C9_parse_price "" 1234567).2.2⟩

/-! ## Batch uploads (C3, C8) -/

theorem batchUpload_map_ok (us : List String) :
    batchUpload (us.map Except.ok) = Except.ok us := by
  induction us with
  | nil => rfl
  | cons u us ih => simp [batchUpload, ih]

theorem batchUpload_error_mem (fs : List UploadFile) (e : String)
    (h : batchUpload fs = Except.error e) : Except.error e ∈ fs := by
  induction fs with
  | nil => cases h
  | cons f fs ih =>
    match f with
    | Except.error e0 =>
      simp only [batchUpload] at h
      cases h
      simp
    | Except.ok u =>
      simp only [batchUpload] at h
      split at h
      · cases h
        rename_i he
        exact List.mem_cons_of_mem _ (ih he)
      · cases h

theorem batchUpload_error_of_mem (fs : List UploadFile) (e0 : String)
    (h : Except.error e0 ∈ fs) : ∃ e, batchUpload fs = Except.error e := by
  induction fs with
  | nil => cases h
  | cons f fs ih =>
    match f with
    | Except.error e1 => exact ⟨e1, rfl⟩
    | Except.ok u =>
      rcases List.mem_cons.1 h with h | h
      · cases h
      · rcases ih h with ⟨e, he⟩
        exact ⟨e, by simp [batchUpload, he]⟩


theorem jsGet_updateRoom (fd : FormData) (i : Int) (fv : RoomField)
    (room : Room) (h : jsGet fd.rooms i = some room) :
    jsGet (updateRoom fd i fv).rooms i = some (setRoomField room fv) := by
  rcases jsGet_some _ _ _ h with ⟨h1, h2⟩
  unfold jsGet at h
  rw [dif_pos ⟨h1, h2⟩] at h
  have hr : fd.rooms.get ⟨i.toNat, h2⟩ = room := Option.some_injective _ h
  have hru : (updateRoom fd i fv).rooms = jsMapIdxGo
      (fun room k => if (k : Int) = i then setRoomField room fv else room)
      0 fd.rooms := rfl
  unfold jsGet
  rw [hru]
  have hlen := jsMapIdxGo_length
    (fun room k => if (k : Int) = i then setRoomField room fv else room) 0 fd.rooms
  rw [dif_pos ⟨h1, by rw [hlen]; exact h2⟩]
  rw [jsMapIdxGo_get _ 0 _ _ h2]
  rw [hr]
  rw [if_pos (by omega)]

/-- Claim C3 (corrected): on the property-photo input, an over-limit batch
has exactly its first `MAX_PHOTOS - current` files accepted, the rest
rejected with a toast reporting how many more photos can be accepted (and
nothing accepted once the limit is reached); on the per-room upload, an
over-limit batch is rejected in its entirety — no file is accepted — with
a toast reporting the maximum and the current count. -/
theorem claim_C3_amended_photo_limits :
    (∀ (fd : FormData) (urlsAll : List String),
      0 < urlsAll.length → MAX_PHOTOS < fd.photos.length + urlsAll.length →
      0 < MAX_PHOTOS - fd.photos.length →
      propertyPhotosOnChange fd (urlsAll.map Except.ok) =
        ({ fd with
           photos := fd.photos ++ urlsAll.take (MAX_PHOTOS - fd.photos.length) },
         [tooManyFilesToast (MAX_PHOTOS - fd.photos.length),
          photosUploadedToast (MAX_PHOTOS - fd.photos.length)])) ∧
    (∀ (fd : FormData) (urlsAll : List String),
      0 < urlsAll.length → MAX_PHOTOS - fd.photos.length = 0 →
      propertyPhotosOnChange fd (urlsAll.map Except.ok) =
        (fd, [limitReachedToast])) ∧
    (∀ (fd : FormData) (i : Int) (room : Room) (files : List UploadFile),
      jsGet fd.rooms i = some room →
      MAX_ROOM_PHOTOS < room.photos.length + files.length →
      handleRoomPhotoUpload fd i files =
        (fd, [roomLimitToast room.photos.length])) := by
  refine ⟨?_, ?_, ?_⟩
  · intro fd urlsAll h0 hov hrem
    simp only [propertyPhotosOnChange, List.length_map]
    rw [if_neg (by omega), if_neg (by omega)]
    rw [← List.map_take, batchUpload_map_ok]
    rw [if_pos (by omega)]
    have hlen : (urlsAll.take (MAX_PHOTOS - fd.photos.length)).length =
        MAX_PHOTOS - fd.photos.length := by
      rw [List.length_take]
      omega
    dsimp only
    rw [hlen]
    rfl
  · intro fd urlsAll h0 hrem
    simp only [propertyPhotosOnChange, List.length_map]
    rw [if_neg (by omega), if_pos hrem]
  · intro fd i room files hroom hov
    simp only [handleRoomPhotoUpload, hroom]
    rw [if_pos hov]

/-- Counterexample for C3 as stated: a room holding 14 of its 15 allowed
photos still has one free slot, yet a two-file batch is rejected entirely —
the first `15 - 14 = 1` files are NOT accepted. -/
theorem claim_C3_counterexample :
    MAX_ROOM_PHOTOS < cexRoom14.photos.length + 2 ∧
    MAX_ROOM_PHOTOS - cexRoom14.photos.length = 1 ∧
    handleRoomPhotoUpload cexForm14 0 [Except.ok "a", Except.ok "b"] =
      (cexForm14, [roomLimitToast 14]) ∧
    (handleRoomPhotoUpload cexForm14 0
      [Except.ok "a", Except.ok "b"]).1.rooms.map (fun r => r.photos.length) =
      [14] := by
  refine ⟨by decide, by decide, by decide, by decide⟩

/-- Witness for C3 (amended) at a concrete over-limit property batch. -/
theorem claim_C3_witness :
    propertyPhotosOnChange { emptyForm with photos := photoUrls 19 }
      ([Except.ok "a", Except.ok "b"]) =
      ({ emptyForm with photos := photoUrls 19 ++ ["a"] },
       [tooManyFilesToast 1, photosUploadedToast 1]) := by
  have h := claim_C3_amended_photo_limits.1
    { emptyForm with photos := photoUrls 19 } ["a", "b"]
    (by decide) (by decide) (by decide)
  simpa using h

/-- Claim C8: a batch upload with at least one failing file leaves the
photo state unchanged and surfaces exactly one failure toast carrying the
underlying error message of a file in the batch; a batch whose uploads all
succeed appends all returned URLs in original file-selection order.  This
holds for the per-room handler and for the property-photo input. -/
theorem claim_C8_batch_failure_atomic :
    (∀ (fd : FormData) (i : Int) (room : Room) (files : List UploadFile),
      jsGet fd.rooms i = some room →
      room.photos.length + files.length ≤ MAX_ROOM_PHOTOS →
      (∃ e0, Except.error e0 ∈ files) →
      ∃ e, Except.error e ∈ files ∧
        handleRoomPhotoUpload fd i files = (fd, [roomUploadFailedToast e])) ∧
    (∀ (fd : FormData) (i : Int) (room : Room) (urls : List String),
      jsGet fd.rooms i = some room →
      room.photos.length + urls.length ≤ MAX_ROOM_PHOTOS →
      handleRoomPhotoUpload fd i (urls.map Except.ok) =
        (updateRoom fd i (RoomField.photos (room.photos ++ urls)),
         [roomUploadedToast urls.length]) ∧
      jsGet (handleRoomPhotoUpload fd i (urls.map Except.ok)).1.rooms i =
        some { room with photos := room.photos ++ urls }) ∧
    (∀ (fd : FormData) (files : List UploadFile),
      0 < files.length → fd.photos.length + files.length ≤ MAX_PHOTOS →
      (∃ e0, Except.error e0 ∈ files) →
      ∃ e, Except.error e ∈ files ∧
        propertyPhotosOnChange fd files = (fd, [uploadFailedToast e])) ∧
    (∀ (fd : FormData) (urls : List String),
      0 < urls.length → fd.photos.length + urls.length ≤ MAX_PHOTOS →
      propertyPhotosOnChange fd (urls.map Except.ok) =
        ({ fd with photos := fd.photos ++ urls },
         [photosUploadedToast urls.length])) := by
  refine ⟨?_, ?_, ?_, ?_⟩
  · intro fd i room files hroom hin he0
    rcases he0 with ⟨e0, he0⟩
    rcases batchUpload_error_of_mem files e0 he0 with ⟨e, he⟩
    refine ⟨e, batchUpload_error_mem files e he, ?_⟩
    simp only [handleRoomPhotoUpload, hroom]
    rw [if_neg (by omega), he]
  · intro fd i room urls hroom hin
    have hmain : handleRoomPhotoUpload fd i (urls.map Except.ok) =
        (updateRoom fd i (RoomField.photos (room.photos ++ urls)),
         [roomUploadedToast urls.length]) := by
      simp only [handleRoomPhotoUpload, hroom, List.length_map]
      rw [if_neg (by omega), batchUpload_map_ok]
    refine ⟨hmain, ?_⟩
    rw [hmain]
    exact jsGet_updateRoom fd i _ room hroom
  · intro fd files h0 hin he0
    rcases he0 with ⟨e0, he0⟩
    rcases batchUpload_error_of_mem files e0 he0 with ⟨e, he⟩
    refine ⟨e, batchUpload_error_mem files e he, ?_⟩
    simp only [propertyPhotosOnChange]
    rw [if_neg (by omega), if_neg (by omega),
      List.take_of_length_le (by omega), he, if_neg (by omega)]
    rfl
  · intro fd urls h0 hin
    simp only [propertyPhotosOnChange, List.length_map]
    rw [if_neg (by omega), if_neg (by omega),
      List.take_of_length_le (by simp only [List.length_map]; omega),
      batchUpload_map_ok, if_neg (by omega)]
    rfl

/-- Witness for C8 at a concrete failing batch on the two-photo room. -/
theorem claim_C8_witness :
    handleRoomPhotoUpload cexFormAB 0 [Except.ok "u", Except.error "net down"] =
      (cexFormAB, [roomUploadFailedToast "net down"]) := by
  rcases claim_C8_batch_failure_atomic.1 cexFormAB 0 cexRoomAB
    [Except.ok "u", Except.error "net down"] (by decide) (by decide)
    ⟨"net down", List.mem_cons_of_mem _ (List.mem_cons_self _ _)⟩ with ⟨e, he, hres⟩
  have hedown : e = "net down" := by
    rcases List.mem_cons.1 he with h | h
    · cases h
    · rcases List.mem_cons.1 h with h | h
      · cases h; rfl
      · cases h
  rw [hedown] at hres
  exact hres

theorem doCall_ok (oracle : Oracle) (n : Nat) (f : DB → Nat → DB) (s : St)
    (h : oracle s.calls = none) :
    doCall oracle n f s =
      ({ db := f s.db s.ctr, ctr := s.ctr + n, calls := s.calls + 1 }, none) := by
  simp [doCall, h]

theorem doCall_err (oracle : Oracle) (n : Nat) (f : DB → Nat → DB) (s : St)
    (e : String) (h : oracle s.calls = some e) :
    doCall oracle n f s = ({ s with calls := s.calls + 1 }, some e) := by
  simp [doCall, h]

theorem doCall_fst_calls (oracle : Oracle) (n : Nat) (f : DB → Nat → DB)
    (s : St) : (doCall oracle n f s).1.calls = s.calls + 1 := by
  unfold doCall
  cases oracle s.calls <;> rfl

theorem photoCallCount_cons (r : Room) (rs : List Room) :
    photoCallCount (r :: rs) =
      (if 0 < r.photos.length then 1 else 0) + photoCallCount rs := by
  simp only [photoCallCount, List.filter_cons]
  by_cases hc : 0 < r.photos.length
  · rw [if_pos (by simpa using hc), if_pos hc]
    simp [Nat.add_comm, photoCallCount]
  · rw [if_neg (by simpa using hc), if_neg hc]
    simp [photoCallCount]

theorem roomPhotosLoop_calls (oracle : Oracle) (base : Nat) (rooms : List Room)
    (s : St) :
    (roomPhotosLoop oracle base rooms s).calls = s.calls + photoCallCount rooms := by
  induction rooms generalizing base s with
  | nil => simp [roomPhotosLoop, photoCallCount]
  | cons r rs ih =>
    rw [photoCallCount_cons]
    simp only [roomPhotosLoop]
    split
    · rw [ih, doCall_fst_calls]
      omega
    · rw [ih]
      omega

theorem roomPhotosLoop_allOk (base : Nat) (rooms : List Room) (s : St) :
    roomPhotosLoop allOk base rooms s =
      { db := { s.db with
          room_photos := s.db.room_photos ++ expRoomPhotoRows base s.ctr rooms },
        ctr := s.ctr + totalRoomPhotos rooms,
        calls := s.calls + photoCallCount rooms } := by
  induction rooms generalizing base s with
  | nil =>
    simp [roomPhotosLoop, expRoomPhotoRows, totalRoomPhotos, photoCallCount]
  | cons r rs ih =>
    simp only [roomPhotosLoop]
    split
    · rename_i hc
      rw [doCall_ok allOk _ _ s rfl, ih]
      simp only [insRoomPhotos, expRoomPhotoRows, totalRoomPhotos,
        photoCallCount_cons, if_pos hc]
      show St.mk _ _ _ = St.mk _ _ _
      rw [St.mk.injEq]
      refine ⟨?_, by omega, by omega⟩
      show DB.mk _ _ _ _ = DB.mk _ _ _ _
      rw [DB.mk.injEq]
      refine ⟨rfl, rfl, ?_, rfl⟩
      rw [List.append_assoc]
    · rename_i hc
      have hc' : ¬0 < r.photos.length := by simpa using hc
      have hz : r.photos = [] := by
        rw [← List.length_eq_zero]
        omega
      rw [ih]
      simp only [expRoomPhotoRows, totalRoomPhotos, photoCallCount_cons,
        if_neg hc', hz, List.length_nil]
      show St.mk _ _ _ = St.mk _ _ _
      rw [St.mk.injEq]
      refine ⟨?_, by omega, by simp⟩
      show DB.mk _ _ _ _ = DB.mk _ _ _ _
      rw [DB.mk.injEq]
      refine ⟨rfl, rfl, ?_, rfl⟩
      simp [mkRoomPhotoRows, jsMapIdx, jsMapIdxGo]

theorem roomsBlock_empty (oracle : Oracle) (pid : Nat) (fd : FormData) (s : St)
    (h : fd.rooms.length = 0) : roomsBlock oracle pid fd s = (s, none) := by
  simp [roomsBlock, h]

theorem roomsBlock_insErr (oracle : Oracle) (pid : Nat) (fd : FormData) (s : St)
    (e : String) (h0 : 0 < fd.rooms.length) (he : oracle s.calls = some e) :
    roomsBlock oracle pid fd s = ({ s with calls := s.calls + 1 }, some e) := by
  simp only [roomsBlock, if_pos h0]
  rw [doCall_err oracle _ _ s e he]

theorem roomsBlock_insOk (oracle : Oracle) (pid : Nat) (fd : FormData) (s : St)
    (h0 : 0 < fd.rooms.length) (he : oracle s.calls = none) :
    roomsBlock oracle pid fd s =
      (roomPhotosLoop oracle s.ctr fd.rooms
        { db := insRooms pid fd.rooms s.db s.ctr,
          ctr := s.ctr + fd.rooms.length, calls := s.calls + 1 }, none) := by
  simp only [roomsBlock, if_pos h0]
  rw [doCall_ok oracle _ _ s he]

theorem propPhotosBlock_empty (oracle : Oracle) (pid : Nat) (fd : FormData)
    (s : St) (h : fd.photos.length = 0) :
    propPhotosBlock oracle pid fd s = (s, none) := by
  simp [propPhotosBlock, h]

theorem propPhotosBlock_err (oracle : Oracle) (pid : Nat) (fd : FormData)
    (s : St) (e : String) (h0 : 0 < fd.photos.length)
    (he : oracle s.calls = some e) :
    propPhotosBlock oracle pid fd s = ({ s with calls := s.calls + 1 }, some e) := by
  simp only [propPhotosBlock, if_pos h0]
  rw [doCall_err oracle _ _ s e he]

theorem propPhotosBlock_ok (oracle : Oracle) (pid : Nat) (fd : FormData)
    (s : St) (h0 : 0 < fd.photos.length) (he : oracle s.calls = none) :
    propPhotosBlock oracle pid fd s =
      ({ db := insPropPhotos pid fd.photos s.db s.ctr,
         ctr := s.ctr + fd.photos.length, calls := s.calls + 1 }, none) := by
  simp only [propPhotosBlock, if_pos h0]
  rw [doCall_ok oracle _ _ s he]

theorem runCreate_allOk (userId now : Nat) (fd : FormData) (s0 : St) :
    runCreate allOk userId now fd s0 =
      ({ db :=
           { properties :=
               s0.db.properties ++ [mkPropertyRow s0.ctr userId now fd],
             property_rooms :=
               s0.db.property_rooms ++ mkRoomRows s0.ctr (s0.ctr + 1) fd.rooms,
             room_photos :=
               s0.db.room_photos ++
                 expRoomPhotoRows (s0.ctr + 1) (s0.ctr + 1 + fd.rooms.length)
                   fd.rooms,
             property_photos :=
               s0.db.property_photos ++
                 mkPropPhotoRows s0.ctr
                   (s0.ctr + 1 + fd.rooms.length + totalRoomPhotos fd.rooms)
                   fd.photos },
         ctr :=
           s0.ctr + 1 + fd.rooms.length + totalRoomPhotos fd.rooms +
             fd.photos.length,
         calls :=
           s0.calls + createPhotoPos fd +
             (if 0 < fd.photos.length then 1 else 0) },
       listedToast) := by
  by_cases h0 : 0 < fd.rooms.length
  · by_cases hp : 0 < fd.photos.length
    · simp only [runCreate, doCall_ok allOk _ _ _ rfl,
        roomsBlock_insOk allOk s0.ctr fd _ h0 rfl, roomPhotosLoop_allOk,
        propPhotosBlock_ok allOk s0.ctr fd _ hp rfl]
      simp [insPropPhotos, insRooms, insProperty, createPhotoPos, h0, hp]
      omega
    · simp only [runCreate, doCall_ok allOk _ _ _ rfl,
        roomsBlock_insOk allOk s0.ctr fd _ h0 rfl, roomPhotosLoop_allOk,
        propPhotosBlock_empty allOk s0.ctr fd _ (by omega)]
      simp [insRooms, insProperty, createPhotoPos, h0,
        show fd.photos.length = 0 by omega]
      refine ⟨?_, by omega⟩
      rw [show fd.photos = [] from List.length_eq_zero.mp (by omega)]
      rfl
  · by_cases hp : 0 < fd.photos.length
    · simp only [runCreate, doCall_ok allOk _ _ _ rfl,
        roomsBlock_empty allOk s0.ctr fd _ (by omega),
        propPhotosBlock_ok allOk s0.ctr fd _ hp rfl]
      simp [insPropPhotos, insProperty, createPhotoPos, hp,
        show fd.rooms.length = 0 by omega, expRoomPhotoRows, totalRoomPhotos,
        mkRoomRows, jsMapIdx, jsMapIdxGo,
        show fd.rooms = [] from List.length_eq_zero.mp (by omega)]
    · simp only [runCreate, doCall_ok allOk _ _ _ rfl,
        roomsBlock_empty allOk s0.ctr fd _ (by omega),
        propPhotosBlock_empty allOk s0.ctr fd _ (by omega)]
      simp [insProperty, createPhotoPos,
        show fd.photos.length = 0 by omega, expRoomPhotoRows, totalRoomPhotos,
        mkRoomRows, jsMapIdx, jsMapIdxGo, mkPropPhotoRows,
        show fd.rooms = [] from List.length_eq_zero.mp (by omega),
        show fd.photos = [] from List.length_eq_zero.mp (by omega)]

theorem mkRoomPhotoRows_proj (rid b : Nat) (ps : List String) :
    (mkRoomPhotoRows rid b ps).map rpProj =
      jsMapIdx (fun u j => (rid, u, j)) ps := by
  unfold mkRoomPhotoRows jsMapIdx
  rw [jsMapIdxGo_map]
  rfl

theorem expRoomPhotoRows_proj (base ctr : Nat) (rooms : List Room) :
    (expRoomPhotoRows base ctr rooms).map rpProj =
      allRoomPhotoTriples base rooms := by
  induction rooms generalizing base ctr with
  | nil => rfl
  | cons r rs ih =>
    simp [expRoomPhotoRows, allRoomPhotoTriples, List.map_append,
      mkRoomPhotoRows_proj, ih]

theorem mkPropPhotoRows_proj (pid b : Nat) (ps : List String) :
    (mkPropPhotoRows pid b ps).map ppProj =
      jsMapIdx (fun u j => (pid, u, j)) ps := by
  unfold mkPropPhotoRows jsMapIdx
  rw [jsMapIdxGo_map]
  rfl

theorem mkRoomRows_length (pid b : Nat) (rooms : List Room) :
    (mkRoomRows pid b rooms).length = rooms.length :=
  jsMapIdxGo_length _ _ _

theorem mkRoomRows_pid (pid b : Nat) (rooms : List Room) :
    ∀ rw ∈ mkRoomRows pid b rooms, rw.property_id = pid := by
  intro rw hrw
  rcases jsMapIdxGo_mem _ _ _ _ hrw with ⟨a, i, ha, hi, hbe⟩
  rw [hbe]
  rfl

theorem mkRoomRows_ids (pid b : Nat) (rooms : List Room) :
    (mkRoomRows pid b rooms).map (fun rw => rw.id) =
      jsMapIdx (fun _ i => b + i) rooms := by
  unfold mkRoomRows jsMapIdx
  rw [jsMapIdxGo_map]
  rfl

/-- Claim C1: submitting a validated aggregate in create mode (all
persistence calls succeeding) inserts exactly one `properties` row with
status forced to `published`, then one `property_rooms` row per form room
in input order, each referencing the property's generated id and carrying
consecutive generated ids, then for each room its photos as `room_photos`
rows referencing that room's generated id with `sort_order` 0..K-1 in
file order, and the property-level photos as `property_photos` rows with
`sort_order` equal to their array position. -/
theorem claim_C1_create_persists_aggregate (userId now : Nat) (fd : FormData)
    (s0 : St) (h : pricesOk fd = true) :
    (handleSubmit allOk userId now none fd s0).1.db.properties =
      s0.db.properties ++ [mkPropertyRow s0.ctr userId now fd] ∧
    (mkPropertyRow s0.ctr userId now fd).status = "published" ∧
    (handleSubmit allOk userId now none fd s0).1.db.property_rooms =
      s0.db.property_rooms ++ mkRoomRows s0.ctr (s0.ctr + 1) fd.rooms ∧
    (mkRoomRows s0.ctr (s0.ctr + 1) fd.rooms).length = fd.rooms.length ∧
    (∀ rw ∈ mkRoomRows s0.ctr (s0.ctr + 1) fd.rooms, rw.property_id = s0.ctr) ∧
    (mkRoomRows s0.ctr (s0.ctr + 1) fd.rooms).map (fun rw => rw.id) =
      jsMapIdx (fun _ i => s0.ctr + 1 + i) fd.rooms ∧
    (handleSubmit allOk userId now none fd s0).1.db.room_photos.map rpProj =
      s0.db.room_photos.map rpProj ++ allRoomPhotoTriples (s0.ctr + 1) fd.rooms ∧
    (handleSubmit allOk userId now none fd s0).1.db.property_photos.map ppProj =
      s0.db.property_photos.map ppProj ++
        jsMapIdx (fun u j => (s0.ctr, u, j)) fd.photos ∧
    (handleSubmit allOk userId now none fd s0).2 = [listedToast] := by
  have hrun : handleSubmit allOk userId now none fd s0 =
      ((runCreate allOk userId now fd s0).1,
       [(runCreate allOk userId now fd s0).2]) := by
    simp [handleSubmit, h]
  rw [hrun, runCreate_allOk]
  refine ⟨rfl, rfl, rfl, mkRoomRows_length _ _ _, mkRoomRows_pid _ _ _,
    mkRoomRows_ids _ _ _, ?_, ?_, rfl⟩
  · rw [List.map_append, expRoomPhotoRows_proj]
  · rw [List.map_append, mkPropPhotoRows_proj]

/-- Witness for C1 on a concrete one-room aggregate with one room photo
and one property photo over the empty database. -/
theorem claim_C1_witness :
    pricesOk cexFormC2 = true ∧
    (handleSubmit allOk 9 100 none cexFormC2 stEmpty).1.db.properties =
      [mkPropertyRow 0 9 100 cexFormC2] ∧
    (handleSubmit allOk 9 100 none cexFormC2 stEmpty).1.db.room_photos.map
      rpProj = [(1, "r1", 0)] := by
  have h := claim_C1_create_persists_aggregate 9 100 cexFormC2 stEmpty
    (by decide)
  refine ⟨by decide, ?_, ?_⟩
  · have h1 := h.1
    simpa [stEmpty, DB.empty] using h1
  · have h7 := h.2.2.2.2.2.2.1
    simpa [stEmpty, DB.empty, cexFormC2, allRoomPhotoTriples, jsMapIdx,
      jsMapIdxGo, emptyForm] using h7

theorem jsFilterIdx_zero_tail (ps : List String) :
    jsFilterIdx (fun k => !((k : Int) = 0)) ps = ps.tail := by
  cases ps with
  | nil => rfl
  | cons a as =>
    show jsFilterIdxGo _ 0 (a :: as) = as
    simp only [jsFilterIdxGo]
    rw [if_neg (by simp)]
    apply jsFilterIdxGo_id
    intro k hk hk2
    simp
    omega

/-- Claim C4 (corrected): each photo's persisted `sort_order` equals the
photo's position in the in-memory array at submit time, not at upload
time: removing a photo re-indexes the array, so after removing the first
photo the remaining photos are persisted with `sort_order` shifted down
by one. -/
theorem claim_C4_amended_submit_time_sort_order (userId now : Nat)
    (fd : FormData) (s0 : St) (i j : Int) (room : Room)
    (hi : jsGet fd.rooms i = some room)
    (h : pricesOk (removeRoomPhoto fd i j) = true) :
    jsGet (removeRoomPhoto fd i j).rooms i =
      some { room with
             photos := jsFilterIdx (fun k => !((k : Int) = j)) room.photos } ∧
    jsFilterIdx (fun k => !((k : Int) = 0)) room.photos = room.photos.tail ∧
    (handleSubmit allOk userId now none
        (removeRoomPhoto fd i j) s0).1.db.room_photos.map rpProj =
      s0.db.room_photos.map rpProj ++
        allRoomPhotoTriples (s0.ctr + 1) (removeRoomPhoto fd i j).rooms := by
  refine ⟨?_, jsFilterIdx_zero_tail room.photos, ?_⟩
  · have hrem : removeRoomPhoto fd i j = updateRoom fd i
        (RoomField.photos (jsFilterIdx (fun k => !((k : Int) = j)) room.photos)) := by
      simp [removeRoomPhoto, hi]
    rw [hrem]
    exact jsGet_updateRoom fd i _ room hi
  · have hrun : handleSubmit allOk userId now none (removeRoomPhoto fd i j) s0 =
        ((runCreate allOk userId now (removeRoomPhoto fd i j) s0).1,
         [(runCreate allOk userId now (removeRoomPhoto fd i j) s0).2]) := by
      simp [handleSubmit, h]
    rw [hrun, runCreate_allOk]
    rw [List.map_append, expRoomPhotoRows_proj]

/-- Counterexample for C4 as stated: a room's photos are "a" (uploaded at
position 0) and "b" (uploaded at position 1).  Submitting directly
persists "b" with `sort_order` 1; removing the earlier photo "a" first and
then submitting persists "b" with `sort_order` 0 — removing an earlier
photo does change the `sort_order` later persisted for a remaining
photo. -/
theorem claim_C4_counterexample :
    (handleSubmit allOk 9 100 none cexFormAB stEmpty).1.db.room_photos.map
      rpProj = [(1, "a", 0), (1, "b", 1)] ∧
    (handleSubmit allOk 9 100 none (removeRoomPhoto cexFormAB 0 0)
      stEmpty).1.db.room_photos.map rpProj = [(1, "b", 0)] := by
  exact ⟨by decide, by decide⟩

/-- Witness for C4 (amended) on the two-photo room. -/
theorem claim_C4_witness :
    jsGet (removeRoomPhoto cexFormAB 0 0).rooms 0 =
      some { cexRoomAB with photos := ["b"] } := by
  have h := (claim_C4_amended_submit_time_sort_order 9 100 cexFormAB stEmpty
    0 0 cexRoomAB (by decide) (by decide)).1
  have hf : jsFilterIdx (fun k => !((k : Int) = 0)) cexRoomAB.photos = ["b"] := by
    decide
  rw [hf] at h
  exact h

theorem roomsBlock_calls_ge (oracle : Oracle) (pid : Nat) (fd : FormData)
    (s : St) : s.calls ≤ (roomsBlock oracle pid fd s).1.calls := by
  by_cases h0 : 0 < fd.rooms.length
  · cases he : oracle s.calls with
    | some e =>
      rw [roomsBlock_insErr oracle pid fd s e h0 he]
      simp
    | none =>
      rw [roomsBlock_insOk oracle pid fd s h0 he]
      simp [roomPhotosLoop_calls]
      omega
  · rw [roomsBlock_empty oracle pid fd s (by omega)]

theorem propPhotosBlock_calls_ge (oracle : Oracle) (pid : Nat) (fd : FormData)
    (s : St) : s.calls ≤ (propPhotosBlock oracle pid fd s).1.calls := by
  by_cases h0 : 0 < fd.photos.length
  · cases he : oracle s.calls with
    | some e =>
      rw [propPhotosBlock_err oracle pid fd s e h0 he]
      simp
    | none =>
      rw [propPhotosBlock_ok oracle pid fd s h0 he]
      simp
  · rw [propPhotosBlock_empty oracle pid fd s (by omega)]

theorem runCreate_calls_gt (oracle : Oracle) (userId now : Nat) (fd : FormData)
    (s0 : St) : s0.calls < (runCreate oracle userId now fd s0).1.calls := by
  unfold runCreate
  cases h1 : oracle s0.calls with
  | some e =>
    rw [doCall_err oracle 1 _ s0 e h1]
    simp
  | none =>
    rw [doCall_ok oracle 1 _ s0 h1]
    dsimp only
    have hge := roomsBlock_calls_ge oracle s0.ctr fd
      { db := insProperty userId now fd s0.db s0.ctr, ctr := s0.ctr + 1,
        calls := s0.calls + 1 }
    rcases hrb : roomsBlock oracle s0.ctr fd
      { db := insProperty userId now fd s0.db s0.ctr, ctr := s0.ctr + 1,
        calls := s0.calls + 1 } with ⟨s2, o2⟩
    rw [hrb] at hge
    cases o2 with
    | some e =>
      dsimp only at hge ⊢
      omega
    | none =>
      dsimp only at hge ⊢
      have hge2 := propPhotosBlock_calls_ge oracle s0.ctr fd s2
      rcases hpb : propPhotosBlock oracle s0.ctr fd s2 with ⟨s3, o3⟩
      rw [hpb] at hge2
      cases o3 <;> dsimp only at hge2 ⊢ <;> omega

theorem runEdit_calls_gt (oracle : Oracle) (pid now : Nat) (fd : FormData)
    (s0 : St) : s0.calls < (runEdit oracle pid now fd s0).1.calls := by
  unfold runEdit
  cases h1 : oracle s0.calls with
  | some e =>
    rw [doCall_err oracle 0 _ s0 e h1]
    simp
  | none =>
    rw [doCall_ok oracle 0 _ s0 h1]
    dsimp only
    cases h2 : oracle (s0.calls + 1) with
    | some e =>
      rw [doCall_err oracle 0 _ _ e h2]
      dsimp only
      omega
    | none =>
      rw [doCall_ok oracle 0 _ _ h2]
      dsimp only
      simp only [Nat.add_zero]
      have hge := roomsBlock_calls_ge oracle pid fd
        { db := delRoomsOf pid (updProperty pid now fd s0.db s0.ctr) s0.ctr,
          ctr := s0.ctr, calls := s0.calls + 1 + 1 }
      rcases hrb : roomsBlock oracle pid fd
        { db := delRoomsOf pid (updProperty pid now fd s0.db s0.ctr) s0.ctr,
          ctr := s0.ctr, calls := s0.calls + 1 + 1 } with ⟨s3, o3⟩
      rw [hrb] at hge
      cases o3 with
      | some e =>
        dsimp only at hge ⊢
        omega
      | none =>
        dsimp only at hge ⊢
        cases h4 : oracle s3.calls with
        | some e =>
          rw [doCall_err oracle 0 _ s3 e h4]
          dsimp only
          omega
        | none =>
          rw [doCall_ok oracle 0 _ s3 h4]
          dsimp only
          simp only [Nat.add_zero]
          have hge2 := propPhotosBlock_calls_ge oracle pid fd
            { db := delPropPhotosOf pid s3.db s3.ctr, ctr := s3.ctr,
              calls := s3.calls + 1 }
          rcases hpb : propPhotosBlock oracle pid fd
            { db := delPropPhotosOf pid s3.db s3.ctr, ctr := s3.ctr,
              calls := s3.calls + 1 } with ⟨s4, o4⟩
          rw [hpb] at hge2
          cases o4 <;> dsimp only at hge2 ⊢ <;> omega

theorem priceVal_not_num (p : PriceVal) :
    p.isNum = false ↔ p = PriceVal.null ∨ p = PriceVal.nan := by
  cases p <;> simp [PriceVal.isNum]

/-- Claim C6: submission is rejected by the room-price validation — before
any persistence call, with no state change and a single validation toast —
exactly when some room's price is absent (`null`) or non-numeric (`NaN`);
when every room's price is a number the validation passes and the
persistence sequence begins (at least one persistence call is issued, in
either mode and under any oracle). -/
theorem claim_C6_price_validation_gates_submit (oracle : Oracle)
    (userId now : Nat) (editId : Option Nat) (fd : FormData) (s0 : St) :
    (pricesOk fd = false ↔
      ∃ r ∈ fd.rooms, r.price_lkr = PriceVal.null ∨ r.price_lkr = PriceVal.nan) ∧
    (pricesOk fd = false →
      handleSubmit oracle userId now editId fd s0 = (s0, [missingPriceToast])) ∧
    (pricesOk fd = true →
      s0.calls < (handleSubmit oracle userId now editId fd s0).1.calls) := by
  refine ⟨?_, ?_, ?_⟩
  · rw [← Bool.not_eq_true]
    simp only [pricesOk, List.all_eq_true, not_forall]
    constructor
    · intro h
      rcases h with ⟨r, hr, hn⟩
      exact ⟨r, hr, (priceVal_not_num r.price_lkr).1 (by simpa using hn)⟩
    · intro h
      rcases h with ⟨r, hr, hn⟩
      exact ⟨r, hr, by simp [(priceVal_not_num r.price_lkr).2 hn]⟩
  · intro hf
    simp [handleSubmit, hf]
  · intro ht
    cases editId with
    | none =>
      have : handleSubmit oracle userId now none fd s0 =
          ((runCreate oracle userId now fd s0).1,
           [(runCreate oracle userId now fd s0).2]) := by
        simp [handleSubmit, ht]
      rw [this]
      exact runCreate_calls_gt oracle userId now fd s0
    | some pid =>
      have : handleSubmit oracle userId now (some pid) fd s0 =
          ((runEdit oracle pid now fd s0).1,
           [(runEdit oracle pid now fd s0).2]) := by
        simp [handleSubmit, ht]
      rw [this]
      exact runEdit_calls_gt oracle pid now fd s0

/-- Witness for C6: a room with a `null` price blocks submission with no
state change; with a numeric price the sequence issues calls. -/
theorem claim_C6_witness :
    pricesOk (addRoom emptyForm) = false ∧
    handleSubmit allOk 9 100 none (addRoom emptyForm) stEmpty =
      (stEmpty, [missingPriceToast]) ∧
    pricesOk cexFormC2 = true ∧
    stEmpty.calls < (handleSubmit allOk 9 100 none cexFormC2 stEmpty).1.calls := by
  refine ⟨by decide, ?_, by decide, ?_⟩
  · exact (claim_C6_price_validation_gates_submit allOk 9 100 none
      (addRoom emptyForm) stEmpty).2.1 (by decide)
  · exact (claim_C6_price_validation_gates_submit allOk 9 100 none
      cexFormC2 stEmpty).2.2 (by decide)

/-! ## Sequencer failure characterizations (C2) -/

theorem roomPhotosLoop_db_inv (oracle : Oracle) (base : Nat) (rooms : List Room)
    (s : St) :
    (roomPhotosLoop oracle base rooms s).db.properties = s.db.properties ∧
    (roomPhotosLoop oracle base rooms s).db.property_rooms = s.db.property_rooms ∧
    (roomPhotosLoop oracle base rooms s).db.property_photos = s.db.property_photos ∧
    s.db.room_photos <+: (roomPhotosLoop oracle base rooms s).db.room_photos := by
  induction rooms generalizing base s with
  | nil =>
    simp [roomPhotosLoop]
  | cons r rs ih =>
    simp only [roomPhotosLoop]
    split
    · cases he : oracle s.calls with
      | some e =>
        rw [doCall_err oracle _ _ s e he]
        exact ih (base + 1) _
      | none =>
        rw [doCall_ok oracle _ _ s he]
        rcases ih (base + 1)
          { db := insRoomPhotos base r.photos s.db s.ctr,
            ctr := s.ctr + r.photos.length, calls := s.calls + 1 }
          with ⟨ha, hb, hc, hd⟩
        refine ⟨ha, hb, hc, ?_⟩
        refine List.IsPrefix.trans ?_ hd
        exact List.prefix_append _ _
    · exact ih (base + 1) s

theorem runCreate_firstErr (oracle : Oracle) (userId now : Nat) (fd : FormData)
    (s0 : St) (e : String) (h1 : oracle s0.calls = some e) :
    runCreate oracle userId now fd s0 =
      ({ s0 with calls := s0.calls + 1 }, submitErrorToast e) := by
  unfold runCreate
  rw [doCall_err oracle 1 _ s0 e h1]

theorem runCreate_roomsErr (oracle : Oracle) (userId now : Nat) (fd : FormData)
    (s0 : St) (e : String) (h0 : 0 < fd.rooms.length)
    (h1 : oracle s0.calls = none) (h2 : oracle (s0.calls + 1) = some e) :
    runCreate oracle userId now fd s0 =
      ({ db := insProperty userId now fd s0.db s0.ctr, ctr := s0.ctr + 1,
         calls := s0.calls + 2 }, submitErrorToast e) := by
  unfold runCreate
  rw [doCall_ok oracle 1 _ s0 h1]
  dsimp only
  rw [roomsBlock_insErr oracle s0.ctr fd _ e h0 (by exact h2)]

theorem runCreate_photosErr (oracle : Oracle) (userId now : Nat) (fd : FormData)
    (s0 : St) (e : String) (h1 : oracle s0.calls = none)
    (h2 : 0 < fd.rooms.length → oracle (s0.calls + 1) = none)
    (hp : 0 < fd.photos.length)
    (h3 : oracle (s0.calls + createPhotoPos fd) = some e) :
    (runCreate oracle userId now fd s0).2 = submitErrorToast e ∧
    (runCreate oracle userId now fd s0).1.calls =
      s0.calls + createPhotoPos fd + 1 ∧
    (runCreate oracle userId now fd s0).1.db.property_photos =
      s0.db.property_photos ∧
    (runCreate oracle userId now fd s0).1.db.properties =
      s0.db.properties ++ [mkPropertyRow s0.ctr userId now fd] ∧
    (0 < fd.rooms.length →
      (runCreate oracle userId now fd s0).1.db.property_rooms =
        s0.db.property_rooms ++ mkRoomRows s0.ctr (s0.ctr + 1) fd.rooms) := by
  unfold runCreate
  rw [doCall_ok oracle 1 _ s0 h1]
  dsimp only
  by_cases h0 : 0 < fd.rooms.length
  · rw [roomsBlock_insOk oracle s0.ctr fd _ h0 (by exact h2 h0)]
    dsimp only
    rcases roomPhotosLoop_db_inv oracle (s0.ctr + 1) fd.rooms
      { db := insRooms s0.ctr fd.rooms
          (insProperty userId now fd s0.db s0.ctr) (s0.ctr + 1),
        ctr := s0.ctr + 1 + fd.rooms.length, calls := s0.calls + 1 + 1 }
      with ⟨ha, hb, hc, _hd⟩
    have hcalls := roomPhotosLoop_calls oracle (s0.ctr + 1) fd.rooms
      { db := insRooms s0.ctr fd.rooms
          (insProperty userId now fd s0.db s0.ctr) (s0.ctr + 1),
        ctr := s0.ctr + 1 + fd.rooms.length, calls := s0.calls + 1 + 1 }
    have hpos : s0.calls + createPhotoPos fd =
        (roomPhotosLoop oracle (s0.ctr + 1) fd.rooms
          { db := insRooms s0.ctr fd.rooms
              (insProperty userId now fd s0.db s0.ctr) (s0.ctr + 1),
            ctr := s0.ctr + 1 + fd.rooms.length,
            calls := s0.calls + 1 + 1 }).calls := by
      rw [hcalls]
      simp only [createPhotoPos, if_pos h0]
      omega
    rw [propPhotosBlock_err oracle s0.ctr fd _ e hp (by rw [← hpos]; exact h3)]
    dsimp only
    refine ⟨rfl, by omega, by rw [hc]; rfl, by rw [ha]; rfl,
      fun _ => by rw [hb]; rfl⟩
  · rw [roomsBlock_empty oracle s0.ctr fd _ (by omega)]
    dsimp only
    have hpos : createPhotoPos fd = 1 := by
      simp [createPhotoPos, h0]
    rw [propPhotosBlock_err oracle s0.ctr fd _ e hp
      (by rw [show s0.calls + 1 = s0.calls + createPhotoPos fd by omega]; exact h3)]
    dsimp only
    refine ⟨rfl, by omega, rfl, rfl, fun hr => absurd hr h0⟩

theorem runCreate_success (oracle : Oracle) (userId now : Nat) (fd : FormData)
    (s0 : St) (h1 : oracle s0.calls = none)
    (h2 : 0 < fd.rooms.length → oracle (s0.calls + 1) = none)
    (h3 : 0 < fd.photos.length →
      oracle (s0.calls + createPhotoPos fd) = none) :
    (runCreate oracle userId now fd s0).2 = listedToast := by
  unfold runCreate
  rw [doCall_ok oracle 1 _ s0 h1]
  dsimp only
  by_cases h0 : 0 < fd.rooms.length
  · rw [roomsBlock_insOk oracle s0.ctr fd _ h0 (by exact h2 h0)]
    dsimp only
    have hcalls := roomPhotosLoop_calls oracle (s0.ctr + 1) fd.rooms
      { db := insRooms s0.ctr fd.rooms
          (insProperty userId now fd s0.db s0.ctr) (s0.ctr + 1),
        ctr := s0.ctr + 1 + fd.rooms.length, calls := s0.calls + 1 + 1 }
    by_cases hp : 0 < fd.photos.length
    · rw [propPhotosBlock_ok oracle s0.ctr fd _ hp
        (by rw [hcalls]
            dsimp only
            rw [show s0.calls + 1 + 1 + photoCallCount fd.rooms =
              s0.calls + createPhotoPos fd by
                simp only [createPhotoPos, if_pos h0]; omega]
            exact h3 hp)]
    · rw [propPhotosBlock_empty oracle s0.ctr fd _ (by omega)]
  · rw [roomsBlock_empty oracle s0.ctr fd _ (by omega)]
    dsimp only
    by_cases hp : 0 < fd.photos.length
    · rw [propPhotosBlock_ok oracle s0.ctr fd _ hp
        (by rw [show s0.calls + 1 = s0.calls + createPhotoPos fd by
              simp [createPhotoPos, if_neg h0]]
            exact h3 hp)]
    · rw [propPhotosBlock_empty oracle s0.ctr fd _ (by omega)]

theorem roomsBlock_db_inv (oracle : Oracle) (pid : Nat) (fd : FormData)
    (s : St) :
    (roomsBlock oracle pid fd s).1.db.properties = s.db.properties ∧
    (roomsBlock oracle pid fd s).1.db.property_photos = s.db.property_photos ∧
    s.db.property_rooms <+: (roomsBlock oracle pid fd s).1.db.property_rooms ∧
    s.db.room_photos <+: (roomsBlock oracle pid fd s).1.db.room_photos := by
  by_cases h0 : 0 < fd.rooms.length
  · cases he : oracle s.calls with
    | some e =>
      rw [roomsBlock_insErr oracle pid fd s e h0 he]
      simp
    | none =>
      rw [roomsBlock_insOk oracle pid fd s h0 he]
      dsimp only
      rcases roomPhotosLoop_db_inv oracle s.ctr fd.rooms
        { db := insRooms pid fd.rooms s.db s.ctr,
          ctr := s.ctr + fd.rooms.length, calls := s.calls + 1 }
        with ⟨ha, hb, hc, hd⟩
      refine ⟨by rw [ha]; rfl, by rw [hc]; rfl, ?_, ?_⟩
      · rw [hb]
        exact List.prefix_append _ _
      · exact List.IsPrefix.trans (by rfl) hd
  · rw [roomsBlock_empty oracle pid fd s (by omega)]
    simp

theorem propPhotosBlock_db_inv (oracle : Oracle) (pid : Nat) (fd : FormData)
    (s : St) :
    (propPhotosBlock oracle pid fd s).1.db.properties = s.db.properties ∧
    (propPhotosBlock oracle pid fd s).1.db.property_rooms = s.db.property_rooms ∧
    (propPhotosBlock oracle pid fd s).1.db.room_photos = s.db.room_photos ∧
    s.db.property_photos <+: (propPhotosBlock oracle pid fd s).1.db.property_photos := by
  by_cases h0 : 0 < fd.photos.length
  · cases he : oracle s.calls with
    | some e =>
      rw [propPhotosBlock_err oracle pid fd s e h0 he]
      simp
    | none =>
      rw [propPhotosBlock_ok oracle pid fd s h0 he]
      refine ⟨rfl, rfl, rfl, List.prefix_append _ _⟩
  · rw [propPhotosBlock_empty oracle pid fd s (by omega)]
    simp

theorem runCreate_noRollback (oracle : Oracle) (userId now : Nat)
    (fd : FormData) (s0 : St) :
    s0.db.properties <+: (runCreate oracle userId now fd s0).1.db.properties ∧
    s0.db.property_rooms <+:
      (runCreate oracle userId now fd s0).1.db.property_rooms ∧
    s0.db.room_photos <+: (runCreate oracle userId now fd s0).1.db.room_photos ∧
    s0.db.property_photos <+:
      (runCreate oracle userId now fd s0).1.db.property_photos := by
  unfold runCreate
  cases h1 : oracle s0.calls with
  | some e =>
    rw [doCall_err oracle 1 _ s0 e h1]
    simp
  | none =>
    rw [doCall_ok oracle 1 _ s0 h1]
    dsimp only
    rcases roomsBlock_db_inv oracle s0.ctr fd
      { db := insProperty userId now fd s0.db s0.ctr, ctr := s0.ctr + 1,
        calls := s0.calls + 1 } with ⟨ha, hb, hc, hd⟩
    rcases hrb : roomsBlock oracle s0.ctr fd
      { db := insProperty userId now fd s0.db s0.ctr, ctr := s0.ctr + 1,
        calls := s0.calls + 1 } with ⟨s2, o2⟩
    rw [hrb] at ha hb hc hd
    dsimp only at ha hb hc hd
    have ka : s0.db.properties <+: s2.db.properties := by
      rw [ha]
      exact List.prefix_append _ _
    have kb : s0.db.property_rooms <+: s2.db.property_rooms := hc
    have kc : s0.db.room_photos <+: s2.db.room_photos := hd
    have kd : s0.db.property_photos <+: s2.db.property_photos := by
      rw [hb]
      exact List.prefix_refl _
    cases o2 with
    | some e =>
      dsimp only
      exact ⟨ka, kb, kc, kd⟩
    | none =>
      dsimp only
      rcases propPhotosBlock_db_inv oracle s0.ctr fd s2 with ⟨qa, qb, qc, qd⟩
      rcases hpb : propPhotosBlock oracle s0.ctr fd s2 with ⟨s3, o3⟩
      rw [hpb] at qa qb qc qd
      dsimp only at qa qb qc qd
      cases o3 <;> dsimp only <;>
        exact ⟨by rw [qa]; exact ka, by rw [qb]; exact kb, by rw [qc]; exact kc,
          kd.trans qd⟩

theorem updProperty_ids (pid now : Nat) (fd : FormData) (l : List PropertyRow) :
    (l.map (fun q => if q.id = pid then applyUpdate q fd now else q)).map
        (fun q => q.id) =
      l.map (fun q => q.id) := by
  rw [List.map_map]
  apply List.map_congr_left
  intro q _
  by_cases hq : q.id = pid
  · simp [hq, applyUpdate]
  · simp [hq]

theorem runEdit_firstErr (oracle : Oracle) (pid now : Nat) (fd : FormData)
    (s0 : St) (e : String) (h1 : oracle s0.calls = some e) :
    runEdit oracle pid now fd s0 =
      ({ s0 with calls := s0.calls + 1 }, submitErrorToast e) := by
  unfold runEdit
  rw [doCall_err oracle 0 _ s0 e h1]

theorem runEdit_delRoomsErr (oracle : Oracle) (pid now : Nat) (fd : FormData)
    (s0 : St) (e : String) (h1 : oracle s0.calls = none)
    (h2 : oracle (s0.calls + 1) = some e) :
    runEdit oracle pid now fd s0 =
      ({ db := updProperty pid now fd s0.db s0.ctr, ctr := s0.ctr,
         calls := s0.calls + 2 }, submitErrorToast e) := by
  unfold runEdit
  rw [doCall_ok oracle 0 _ s0 h1]
  dsimp only
  rw [doCall_err oracle 0 _ _ e (by exact h2)]
  rfl

theorem runEdit_roomsErr (oracle : Oracle) (pid now : Nat) (fd : FormData)
    (s0 : St) (e : String) (h0 : 0 < fd.rooms.length)
    (h1 : oracle s0.calls = none) (h2 : oracle (s0.calls + 1) = none)
    (h3 : oracle (s0.calls + 2) = some e) :
    runEdit oracle pid now fd s0 =
      ({ db := delRoomsOf pid (updProperty pid now fd s0.db s0.ctr) s0.ctr,
         ctr := s0.ctr, calls := s0.calls + 3 }, submitErrorToast e) := by
  unfold runEdit
  rw [doCall_ok oracle 0 _ s0 h1]
  dsimp only
  rw [doCall_ok oracle 0 _ _ (by exact h2)]
  dsimp only
  rw [roomsBlock_insErr oracle pid fd _ e h0 (by exact h3)]
  rfl

theorem runEdit_delPhotosErr (oracle : Oracle) (pid now : Nat) (fd : FormData)
    (s0 : St) (e : String) (h1 : oracle s0.calls = none)
    (h2 : oracle (s0.calls + 1) = none)
    (h3 : 0 < fd.rooms.length → oracle (s0.calls + 2) = none)
    (h4 : oracle (s0.calls + editDelPhotosPos fd) = some e) :
    (runEdit oracle pid now fd s0).2 = submitErrorToast e ∧
    (runEdit oracle pid now fd s0).1.calls =
      s0.calls + editDelPhotosPos fd + 1 ∧
    (runEdit oracle pid now fd s0).1.db.property_photos =
      s0.db.property_photos ∧
    (runEdit oracle pid now fd s0).1.db.properties =
      s0.db.properties.map
        (fun q => if q.id = pid then applyUpdate q fd now else q) := by
  unfold runEdit
  rw [doCall_ok oracle 0 _ s0 h1]
  dsimp only
  rw [doCall_ok oracle 0 _ _ (by exact h2)]
  dsimp only
  simp only [Nat.add_zero]
  by_cases h0 : 0 < fd.rooms.length
  · rw [roomsBlock_insOk oracle pid fd _ h0 (by exact h3 h0)]
    dsimp only
    have hcalls := roomPhotosLoop_calls oracle s0.ctr fd.rooms
      { db := insRooms pid fd.rooms
          (delRoomsOf pid (updProperty pid now fd s0.db s0.ctr) s0.ctr) s0.ctr,
        ctr := s0.ctr + fd.rooms.length, calls := s0.calls + 1 + 1 + 1 }
    rcases roomPhotosLoop_db_inv oracle s0.ctr fd.rooms
      { db := insRooms pid fd.rooms
          (delRoomsOf pid (updProperty pid now fd s0.db s0.ctr) s0.ctr) s0.ctr,
        ctr := s0.ctr + fd.rooms.length, calls := s0.calls + 1 + 1 + 1 }
      with ⟨ha, hb, hc, _hd⟩
    rw [doCall_err oracle 0 _ _ e
      (by rw [hcalls]
          dsimp only
          rw [show s0.calls + 1 + 1 + 1 + photoCallCount fd.rooms =
            s0.calls + editDelPhotosPos fd by
              simp only [editDelPhotosPos, if_pos h0]; omega]
          exact h4)]
    dsimp only
    refine ⟨rfl, ?_, by rw [hc]; rfl, by rw [ha]; rfl⟩
    rw [hcalls]
    dsimp only
    simp only [editDelPhotosPos, if_pos h0]
    omega
  · rw [roomsBlock_empty oracle pid fd _ (by omega)]
    dsimp only
    rw [doCall_err oracle 0 _ _ e
      (by rw [show s0.calls + 1 + 1 = s0.calls + editDelPhotosPos fd by
            simp [editDelPhotosPos, if_neg h0]]
          exact h4)]
    dsimp only
    refine ⟨rfl, ?_, rfl, rfl⟩
    simp [editDelPhotosPos, if_neg h0]

theorem runEdit_photosErr (oracle : Oracle) (pid now : Nat) (fd : FormData)
    (s0 : St) (e : String) (h1 : oracle s0.calls = none)
    (h2 : oracle (s0.calls + 1) = none)
    (h3 : 0 < fd.rooms.length → oracle (s0.calls + 2) = none)
    (h4 : oracle (s0.calls + editDelPhotosPos fd) = none)
    (hp : 0 < fd.photos.length)
    (h5 : oracle (s0.calls + editDelPhotosPos fd + 1) = some e) :
    (runEdit oracle pid now fd s0).2 = submitErrorToast e ∧
    (runEdit oracle pid now fd s0).1.calls =
      s0.calls + editDelPhotosPos fd + 2 ∧
    (runEdit oracle pid now fd s0).1.db.property_photos =
      s0.db.property_photos.filter (fun ph => !(ph.property_id = pid)) := by
  unfold runEdit
  rw [doCall_ok oracle 0 _ s0 h1]
  dsimp only
  rw [doCall_ok oracle 0 _ _ (by exact h2)]
  dsimp only
  simp only [Nat.add_zero]
  by_cases h0 : 0 < fd.rooms.length
  · rw [roomsBlock_insOk oracle pid fd _ h0 (by exact h3 h0)]
    dsimp only
    have hcalls := roomPhotosLoop_calls oracle s0.ctr fd.rooms
      { db := insRooms pid fd.rooms
          (delRoomsOf pid (updProperty pid now fd s0.db s0.ctr) s0.ctr) s0.ctr,
        ctr := s0.ctr + fd.rooms.length, calls := s0.calls + 1 + 1 + 1 }
    rcases roomPhotosLoop_db_inv oracle s0.ctr fd.rooms
      { db := insRooms pid fd.rooms
          (delRoomsOf pid (updProperty pid now fd s0.db s0.ctr) s0.ctr) s0.ctr,
        ctr := s0.ctr + fd.rooms.length, calls := s0.calls + 1 + 1 + 1 }
      with ⟨ha, hb, hc, _hd⟩
    have hpos : s0.calls + 1 + 1 + 1 + photoCallCount fd.rooms =
        s0.calls + editDelPhotosPos fd := by
      simp only [editDelPhotosPos, if_pos h0]
      omega
    rw [doCall_ok oracle 0 _ _ (by rw [hcalls]; dsimp only; rw [hpos]; exact h4)]
    dsimp only
    rw [propPhotosBlock_err oracle pid fd _ e hp
      (by dsimp only
          rw [hcalls]
          dsimp only
          rw [show s0.calls + 1 + 1 + 1 + photoCallCount fd.rooms + 1 =
            s0.calls + editDelPhotosPos fd + 1 by omega]
          exact h5)]
    dsimp only
    refine ⟨rfl, ?_, ?_⟩
    · rw [hcalls]
      dsimp only
      omega
    · show (delPropPhotosOf pid _ _).property_photos = _
      unfold delPropPhotosOf
      dsimp only
      rw [hc]
      rfl
  · rw [roomsBlock_empty oracle pid fd _ (by omega)]
    dsimp only
    have hpos : s0.calls + 1 + 1 = s0.calls + editDelPhotosPos fd := by
      simp [editDelPhotosPos, if_neg h0]
    rw [doCall_ok oracle 0 _ _ (by rw [hpos]; exact h4)]
    dsimp only
    rw [propPhotosBlock_err oracle pid fd _ e hp
      (by dsimp only
          rw [show s0.calls + 1 + 1 + 1 = s0.calls + editDelPhotosPos fd + 1 by
            omega]
          exact h5)]
    dsimp only
    refine ⟨rfl, by omega, rfl⟩

theorem runEdit_success (oracle : Oracle) (pid now : Nat) (fd : FormData)
    (s0 : St) (h1 : oracle s0.calls = none)
    (h2 : oracle (s0.calls + 1) = none)
    (h3 : 0 < fd.rooms.length → oracle (s0.calls + 2) = none)
    (h4 : oracle (s0.calls + editDelPhotosPos fd) = none)
    (h5 : 0 < fd.photos.length →
      oracle (s0.calls + editDelPhotosPos fd + 1) = none) :
    (runEdit oracle pid now fd s0).2 = updatedToast := by
  unfold runEdit
  rw [doCall_ok oracle 0 _ s0 h1]
  dsimp only
  rw [doCall_ok oracle 0 _ _ (by exact h2)]
  dsimp only
  simp only [Nat.add_zero]
  by_cases h0 : 0 < fd.rooms.length
  · rw [roomsBlock_insOk oracle pid fd _ h0 (by exact h3 h0)]
    dsimp only
    have hcalls := roomPhotosLoop_calls oracle s0.ctr fd.rooms
      { db := insRooms pid fd.rooms
          (delRoomsOf pid (updProperty pid now fd s0.db s0.ctr) s0.ctr) s0.ctr,
        ctr := s0.ctr + fd.rooms.length, calls := s0.calls + 1 + 1 + 1 }
    have hpos : s0.calls + 1 + 1 + 1 + photoCallCount fd.rooms =
        s0.calls + editDelPhotosPos fd := by
      simp only [editDelPhotosPos, if_pos h0]
      omega
    rw [doCall_ok oracle 0 _ _ (by rw [hcalls]; dsimp only; rw [hpos]; exact h4)]
    dsimp only
    by_cases hp : 0 < fd.photos.length
    · rw [propPhotosBlock_ok oracle pid fd _ hp
        (by dsimp only
            rw [hcalls]
            dsimp only
            rw [show s0.calls + 1 + 1 + 1 + photoCallCount fd.rooms + 1 =
              s0.calls + editDelPhotosPos fd + 1 by omega]
            exact h5 hp)]
    · rw [propPhotosBlock_empty oracle pid fd _ (by omega)]
  · rw [roomsBlock_empty oracle pid fd _ (by omega)]
    dsimp only
    have hpos : s0.calls + 1 + 1 = s0.calls + editDelPhotosPos fd := by
      simp [editDelPhotosPos, if_neg h0]
    rw [doCall_ok oracle 0 _ _ (by rw [hpos]; exact h4)]
    dsimp only
    by_cases hp : 0 < fd.photos.length
    · rw [propPhotosBlock_ok oracle pid fd _ hp
        (by dsimp only
            rw [show s0.calls + 1 + 1 + 1 = s0.calls + editDelPhotosPos fd + 1 by
              omega]
            exact h5 hp)]
    · rw [propPhotosBlock_empty oracle pid fd _ (by omega)]

theorem runEdit_scopedPreserve (oracle : Oracle) (pid now : Nat)
    (fd : FormData) (s0 : St) :
    (runEdit oracle pid now fd s0).1.db.properties.map (fun q => q.id) =
      s0.db.properties.map (fun q => q.id) ∧
    List.Sublist (s0.db.property_rooms.filter (fun rw => !(rw.property_id = pid)))
      (runEdit oracle pid now fd s0).1.db.property_rooms ∧
    List.Sublist (s0.db.property_photos.filter (fun ph => !(ph.property_id = pid)))
      (runEdit oracle pid now fd s0).1.db.property_photos ∧
    List.Sublist
      (s0.db.room_photos.filter (fun ph =>
        !(((s0.db.property_rooms.filter (fun rw => rw.property_id = pid)).map
            (fun rw => rw.id)).contains ph.room_id)))
      (runEdit oracle pid now fd s0).1.db.room_photos := by
  unfold runEdit
  cases h1 : oracle s0.calls with
  | some e =>
    rw [doCall_err oracle 0 _ s0 e h1]
    exact ⟨rfl, List.filter_sublist _, List.filter_sublist _,
      List.filter_sublist _⟩
  | none =>
    rw [doCall_ok oracle 0 _ s0 h1]
    dsimp only
    cases h2 : oracle (s0.calls + 1) with
    | some e =>
      rw [doCall_err oracle 0 _ _ e (by exact h2)]
      dsimp only
      exact ⟨updProperty_ids pid now fd s0.db.properties,
        List.filter_sublist _, List.filter_sublist _, List.filter_sublist _⟩
    | none =>
      rw [doCall_ok oracle 0 _ _ (by exact h2)]
      dsimp only
      simp only [Nat.add_zero]
      rcases roomsBlock_db_inv oracle pid fd
        { db := delRoomsOf pid (updProperty pid now fd s0.db s0.ctr) s0.ctr,
          ctr := s0.ctr, calls := s0.calls + 1 + 1 } with ⟨ha, hb, hc, hd⟩
      rcases hrb : roomsBlock oracle pid fd
        { db := delRoomsOf pid (updProperty pid now fd s0.db s0.ctr) s0.ctr,
          ctr := s0.ctr, calls := s0.calls + 1 + 1 } with ⟨s3, o3⟩
      rw [hrb] at ha hb hc hd
      dsimp only at ha hb hc hd
      have ga : s3.db.properties.map (fun q => q.id) =
          s0.db.properties.map (fun q => q.id) := by
        rw [ha]
        exact updProperty_ids pid now fd s0.db.properties
      have gb : List.Sublist
          (s0.db.property_rooms.filter (fun rw => !(rw.property_id = pid)))
          s3.db.property_rooms := hc.sublist
      have gc : List.Sublist
          (s0.db.property_photos.filter (fun ph => !(ph.property_id = pid)))
          s3.db.property_photos := by
        rw [hb]
        exact List.filter_sublist _
      have gd : List.Sublist
          (s0.db.room_photos.filter (fun ph =>
            !(((s0.db.property_rooms.filter (fun rw => rw.property_id = pid)).map
                (fun rw => rw.id)).contains ph.room_id)))
          s3.db.room_photos := hd.sublist
      cases o3 with
      | some e =>
        dsimp only
        exact ⟨ga, gb, gc, gd⟩
      | none =>
        dsimp only
        cases h4 : oracle s3.calls with
        | some e =>
          rw [doCall_err oracle 0 _ s3 e h4]
          dsimp only
          exact ⟨ga, gb, gc, gd⟩
        | none =>
          rw [doCall_ok oracle 0 _ s3 h4]
          dsimp only
          rcases propPhotosBlock_db_inv oracle pid fd
            { db := delPropPhotosOf pid s3.db s3.ctr, ctr := s3.ctr + 0,
              calls := s3.calls + 1 } with ⟨qa, qb, qc, qd⟩
          rcases hpb : propPhotosBlock oracle pid fd
            { db := delPropPhotosOf pid s3.db s3.ctr, ctr := s3.ctr + 0,
              calls := s3.calls + 1 } with ⟨s5, o5⟩
          rw [hpb] at qa qb qc qd
          dsimp only at qa qb qc qd
          have hdel : (delPropPhotosOf pid s3.db s3.ctr).property_photos =
              s0.db.property_photos.filter (fun ph => !(ph.property_id = pid)) := by
            unfold delPropPhotosOf
            dsimp only
            rw [hb]
            rfl
          have goals :
              s5.db.properties.map (fun q => q.id) =
                s0.db.properties.map (fun q => q.id) ∧
              List.Sublist
                (s0.db.property_rooms.filter (fun rw => !(rw.property_id = pid)))
                s5.db.property_rooms ∧
              List.Sublist
                (s0.db.property_photos.filter (fun ph => !(ph.property_id = pid)))
                s5.db.property_photos ∧
              List.Sublist
                (s0.db.room_photos.filter (fun ph =>
                  !(((s0.db.property_rooms.filter
                      (fun rw => rw.property_id = pid)).map
                      (fun rw => rw.id)).contains ph.room_id)))
                s5.db.room_photos := by
            refine ⟨by rw [qa]; exact ga, ?_, ?_, ?_⟩
            · rw [qb]
              exact gb
            · rw [hdel] at qd
              exact qd.sublist
            · rw [qc]
              exact gd
          cases o5 <;> dsimp only <;> exact goals

theorem runCreate_err_iff (oracle : Oracle) (userId now : Nat) (fd : FormData)
    (s0 : St) :
    (runCreate oracle userId now fd s0).2.isError = true ↔
      createThrowFails oracle s0.calls fd := by
  constructor
  · intro herr
    by_contra hnf
    rw [createThrowFails] at hnf
    push_neg at hnf
    obtain ⟨hn1, hn2, hn3⟩ := hnf
    rw [runCreate_success oracle userId now fd s0 hn1 hn2 hn3] at herr
    simp [listedToast] at herr
  · intro hf
    cases ho1 : oracle s0.calls with
    | some e =>
      rw [runCreate_firstErr oracle userId now fd s0 e ho1]
      rfl
    | none =>
      by_cases hcase : 0 < fd.rooms.length ∧ oracle (s0.calls + 1) ≠ none
      · obtain ⟨h0, hne⟩ := hcase
        cases ho2 : oracle (s0.calls + 1) with
        | none => exact absurd ho2 hne
        | some e =>
          rw [runCreate_roomsErr oracle userId now fd s0 e h0 ho1 ho2]
          rfl
      · have h2p : 0 < fd.rooms.length → oracle (s0.calls + 1) = none := by
          intro h0
          by_contra hne
          exact hcase ⟨h0, hne⟩
        rcases hf with hf | hf | hf
        · exact absurd ho1 hf
        · exact absurd hf hcase
        · obtain ⟨hp, hne⟩ := hf
          cases ho3 : oracle (s0.calls + createPhotoPos fd) with
          | none => exact absurd ho3 hne
          | some e =>
            rw [(runCreate_photosErr oracle userId now fd s0 e ho1 h2p hp ho3).1]
            rfl

theorem runEdit_err_iff (oracle : Oracle) (pid now : Nat) (fd : FormData)
    (s0 : St) :
    (runEdit oracle pid now fd s0).2.isError = true ↔
      editThrowFails oracle s0.calls fd := by
  constructor
  · intro herr
    by_contra hnf
    rw [editThrowFails] at hnf
    push_neg at hnf
    obtain ⟨hn1, hn2, hn3, hn4, hn5⟩ := hnf
    rw [runEdit_success oracle pid now fd s0 hn1 hn2 hn3 hn4 hn5] at herr
    simp [updatedToast] at herr
  · intro hf
    cases ho1 : oracle s0.calls with
    | some e =>
      rw [runEdit_firstErr oracle pid now fd s0 e ho1]
      rfl
    | none =>
      cases ho2 : oracle (s0.calls + 1) with
      | some e =>
        rw [runEdit_delRoomsErr oracle pid now fd s0 e ho1 ho2]
        rfl
      | none =>
        by_cases hcase : 0 < fd.rooms.length ∧ oracle (s0.calls + 2) ≠ none
        · obtain ⟨h0, hne⟩ := hcase
          cases ho3 : oracle (s0.calls + 2) with
          | none => exact absurd ho3 hne
          | some e =>
            rw [runEdit_roomsErr oracle pid now fd s0 e h0 ho1 ho2 ho3]
            rfl
        · have h3p : 0 < fd.rooms.length → oracle (s0.calls + 2) = none := by
            intro h0
            by_contra hne
            exact hcase ⟨h0, hne⟩
          cases ho4 : oracle (s0.calls + editDelPhotosPos fd) with
          | some e =>
            rw [(runEdit_delPhotosErr oracle pid now fd s0 e ho1 ho2 h3p ho4).1]
            rfl
          | none =>
            rcases hf with hf | hf | hf | hf | hf
            · exact absurd ho1 hf
            · exact absurd ho2 hf
            · exact absurd hf hcase
            · exact absurd ho4 hf
            · obtain ⟨hp, hne⟩ := hf
              cases ho5 : oracle (s0.calls + editDelPhotosPos fd + 1) with
              | none => exact absurd ho5 hne
              | some e =>
                rw [(runEdit_photosErr oracle pid now fd s0 e ho1 ho2 h3p ho4
                  hp ho5).1]
                rfl

/-- Claim C2 (corrected): during submission in either mode, any failing
step whose error is thrown — the property insert or update, the rooms
delete, the rooms bulk insert, the property-photos delete, the
property-photos bulk insert — aborts the remaining persistence calls and
surfaces exactly one user-visible error carrying the failing call's
message, with every step committed before the failure left in place and
no compensating delete issued (create mode only appends rows; edit mode
never touches rows of other properties).  The room-photo bulk-insert step
is the exception: its failure is only logged, the remaining steps still
run, and the success message is still shown. -/
theorem claim_C2_amended_failure_semantics (oracle : Oracle) (userId now : Nat)
    (editId : Option Nat) (fd : FormData) (s0 : St)
    (h : pricesOk fd = true) :
    (∃ t, (handleSubmit oracle userId now editId fd s0).2 = [t]) ∧
    (editId = none →
      ((∃ t ∈ (handleSubmit oracle userId now editId fd s0).2,
          t.isError = true) ↔ createThrowFails oracle s0.calls fd)) ∧
    (∀ pid, editId = some pid →
      ((∃ t ∈ (handleSubmit oracle userId now editId fd s0).2,
          t.isError = true) ↔ editThrowFails oracle s0.calls fd)) ∧
    (∀ e, oracle s0.calls = some e →
      handleSubmit oracle userId now editId fd s0 =
        ({ s0 with calls := s0.calls + 1 }, [submitErrorToast e])) ∧
    (editId = none → 0 < fd.rooms.length → oracle s0.calls = none →
      ∀ e, oracle (s0.calls + 1) = some e →
      handleSubmit oracle userId now editId fd s0 =
        ({ db := insProperty userId now fd s0.db s0.ctr, ctr := s0.ctr + 1,
           calls := s0.calls + 2 }, [submitErrorToast e])) ∧
    (editId = none → oracle s0.calls = none →
      (0 < fd.rooms.length → oracle (s0.calls + 1) = none) →
      0 < fd.photos.length →
      ∀ e, oracle (s0.calls + createPhotoPos fd) = some e →
      (handleSubmit oracle userId now editId fd s0).2 = [submitErrorToast e] ∧
      (handleSubmit oracle userId now editId fd s0).1.calls =
        s0.calls + createPhotoPos fd + 1 ∧
      (handleSubmit oracle userId now editId fd s0).1.db.property_photos =
        s0.db.property_photos) ∧
    (editId = none →
      s0.db.properties <+:
        (handleSubmit oracle userId now editId fd s0).1.db.properties ∧
      s0.db.property_rooms <+:
        (handleSubmit oracle userId now editId fd s0).1.db.property_rooms ∧
      s0.db.room_photos <+:
        (handleSubmit oracle userId now editId fd s0).1.db.room_photos ∧
      s0.db.property_photos <+:
        (handleSubmit oracle userId now editId fd s0).1.db.property_photos) ∧
    (∀ pid, editId = some pid → oracle s0.calls = none →
      ∀ e, oracle (s0.calls + 1) = some e →
      handleSubmit oracle userId now editId fd s0 =
        ({ db := updProperty pid now fd s0.db s0.ctr, ctr := s0.ctr,
           calls := s0.calls + 2 }, [submitErrorToast e])) ∧
    (∀ pid, editId = some pid → 0 < fd.rooms.length →
      oracle s0.calls = none → oracle (s0.calls + 1) = none →
      ∀ e, oracle (s0.calls + 2) = some e →
      handleSubmit oracle userId now editId fd s0 =
        ({ db := delRoomsOf pid (updProperty pid now fd s0.db s0.ctr) s0.ctr,
           ctr := s0.ctr, calls := s0.calls + 3 }, [submitErrorToast e])) ∧
    (∀ pid, editId = some pid → oracle s0.calls = none →
      oracle (s0.calls + 1) = none →
      (0 < fd.rooms.length → oracle (s0.calls + 2) = none) →
      ∀ e, oracle (s0.calls + editDelPhotosPos fd) = some e →
      (handleSubmit oracle userId now editId fd s0).2 = [submitErrorToast e] ∧
      (handleSubmit oracle userId now editId fd s0).1.calls =
        s0.calls + editDelPhotosPos fd + 1 ∧
      (handleSubmit oracle userId now editId fd s0).1.db.property_photos =
        s0.db.property_photos) ∧
    (∀ pid, editId = some pid → oracle s0.calls = none →
      oracle (s0.calls + 1) = none →
      (0 < fd.rooms.length → oracle (s0.calls + 2) = none) →
      oracle (s0.calls + editDelPhotosPos fd) = none →
      0 < fd.photos.length →
      ∀ e, oracle (s0.calls + editDelPhotosPos fd + 1) = some e →
      (handleSubmit oracle userId now editId fd s0).2 = [submitErrorToast e] ∧
      (handleSubmit oracle userId now editId fd s0).1.db.property_photos =
        s0.db.property_photos.filter (fun ph => !(ph.property_id = pid))) ∧
    (∀ pid, editId = some pid →
      (handleSubmit oracle userId now editId fd s0).1.db.properties.map
          (fun q => q.id) =
        s0.db.properties.map (fun q => q.id) ∧
      List.Sublist
        (s0.db.property_rooms.filter (fun rw => !(rw.property_id = pid)))
        (handleSubmit oracle userId now editId fd s0).1.db.property_rooms ∧
      List.Sublist
        (s0.db.property_photos.filter (fun ph => !(ph.property_id = pid)))
        (handleSubmit oracle userId now editId fd s0).1.db.property_photos ∧
      List.Sublist
        (s0.db.room_photos.filter (fun ph =>
          !(((s0.db.property_rooms.filter
              (fun rw => rw.property_id = pid)).map
              (fun rw => rw.id)).contains ph.room_id)))
        (handleSubmit oracle userId now editId fd s0).1.db.room_photos) := by
  have hred : handleSubmit oracle userId now editId fd s0 =
      (match editId with
       | some pid => ((runEdit oracle pid now fd s0).1,
           [(runEdit oracle pid now fd s0).2])
       | none => ((runCreate oracle userId now fd s0).1,
           [(runCreate oracle userId now fd s0).2])) := by
    cases editId <;> simp [handleSubmit, h]
  refine ⟨?_, ?_, ?_, ?_, ?_, ?_, ?_, ?_, ?_, ?_, ?_, ?_⟩
  · rw [hred]
    cases editId <;> exact ⟨_, rfl⟩
  · intro he
    subst he
    rw [hred]
    dsimp only
    simp only [List.mem_singleton, exists_eq_left]
    exact runCreate_err_iff oracle userId now fd s0
  · intro pid he
    subst he
    rw [hred]
    dsimp only
    simp only [List.mem_singleton, exists_eq_left]
    exact runEdit_err_iff oracle pid now fd s0
  · intro e he
    rw [hred]
    cases editId with
    | none =>
      dsimp only
      rw [runCreate_firstErr oracle userId now fd s0 e he]
    | some pid =>
      dsimp only
      rw [runEdit_firstErr oracle pid now fd s0 e he]
  · intro he h0 h1 e h2
    subst he
    rw [hred]
    dsimp only
    rw [runCreate_roomsErr oracle userId now fd s0 e h0 h1 h2]
  · intro he h1 h2 hp e h3
    subst he
    rw [hred]
    dsimp only
    rcases runCreate_photosErr oracle userId now fd s0 e h1 h2 hp h3
      with ⟨ha, hb, hc, _⟩
    exact ⟨by rw [ha], hb, hc⟩
  · intro he
    subst he
    rw [hred]
    dsimp only
    exact runCreate_noRollback oracle userId now fd s0
  · intro pid he h1 e h2
    subst he
    rw [hred]
    dsimp only
    rw [runEdit_delRoomsErr oracle pid now fd s0 e h1 h2]
  · intro pid he h0 h1 h2 e h3
    subst he
    rw [hred]
    dsimp only
    rw [runEdit_roomsErr oracle pid now fd s0 e h0 h1 h2 h3]
  · intro pid he h1 h2 h3 e h4
    subst he
    rw [hred]
    dsimp only
    rcases runEdit_delPhotosErr oracle pid now fd s0 e h1 h2 h3 h4
      with ⟨ha, hb, hc, _⟩
    exact ⟨by rw [ha], hb, hc⟩
  · intro pid he h1 h2 h3 h4 hp e h5
    subst he
    rw [hred]
    dsimp only
    rcases runEdit_photosErr oracle pid now fd s0 e h1 h2 h3 h4 hp h5
      with ⟨ha, _, hc⟩
    exact ⟨by rw [ha], hc⟩
  · intro pid he
    subst he
    rw [hred]
    dsimp only
    exact runEdit_scopedPreserve oracle pid now fd s0

/-- Counterexample for C2 as stated: in `cexFormC2`'s create submission the
third persistence call (index 2) is the room-photo bulk insert; failing it
does not abort the remaining steps — the fourth call (property photos) is
still made and its row committed — and no user-visible error is surfaced:
the success toast is shown. -/
theorem claim_C2_counterexample :
    cexOracleC2 2 = some "boom" ∧
    (handleSubmit cexOracleC2 9 100 none cexFormC2 stEmpty).1.calls = 4 ∧
    (handleSubmit cexOracleC2 9 100 none cexFormC2 stEmpty).1.db.room_photos
      = [] ∧
    (handleSubmit cexOracleC2 9 100 none cexFormC2 stEmpty).1.db.property_photos.map
      ppProj = [(0, "pp1", 0)] ∧
    (handleSubmit cexOracleC2 9 100 none cexFormC2 stEmpty).2 =
      [listedToast] ∧
    listedToast.isError = false := by
  refine ⟨by decide, by decide, by decide, by decide, by decide, by decide⟩

/-- Witness for C2 (amended): failing the very first persistence call of
the concrete create submission aborts everything — the database is
untouched and one error toast with the call's message is surfaced. -/
theorem claim_C2_witness :
    handleSubmit (fun k => if k = 0 then some "denied" else none) 9 100 none
      cexFormC2 stEmpty =
      ({ stEmpty with calls := 1 }, [submitErrorToast "denied"]) := by
  exact (claim_C2_amended_failure_semantics
    (fun k => if k = 0 then some "denied" else none) 9 100 none cexFormC2
    stEmpty (by decide)).2.2.2.1 "denied" (by decide)

theorem runEdit_allOk (pid now : Nat) (fd : FormData) (s0 : St) :
    runEdit allOk pid now fd s0 =
      ({ db :=
           { properties :=
               s0.db.properties.map
                 (fun q => if q.id = pid then applyUpdate q fd now else q),
             property_rooms :=
               s0.db.property_rooms.filter (fun rw => !(rw.property_id = pid)) ++
                 mkRoomRows pid s0.ctr fd.rooms,
             room_photos :=
               s0.db.room_photos.filter (fun ph =>
                 !(((s0.db.property_rooms.filter
                     (fun rw => rw.property_id = pid)).map
                     (fun rw => rw.id)).contains ph.room_id)) ++
                 expRoomPhotoRows s0.ctr (s0.ctr + fd.rooms.length) fd.rooms,
             property_photos :=
               s0.db.property_photos.filter (fun ph => !(ph.property_id = pid)) ++
                 mkPropPhotoRows pid
                   (s0.ctr + fd.rooms.length + totalRoomPhotos fd.rooms)
                   fd.photos },
         ctr :=
           s0.ctr + fd.rooms.length + totalRoomPhotos fd.rooms +
             fd.photos.length,
         calls :=
           s0.calls + editDelPhotosPos fd + 1 +
             (if 0 < fd.photos.length then 1 else 0) },
       updatedToast) := by
  unfold runEdit
  rw [doCall_ok allOk 0 _ s0 rfl]
  dsimp only
  rw [doCall_ok allOk 0 _ _ rfl]
  dsimp only
  simp only [Nat.add_zero]
  by_cases h0 : 0 < fd.rooms.length
  · rw [roomsBlock_insOk allOk pid fd _ h0 rfl]
    dsimp only
    rw [roomPhotosLoop_allOk]
    dsimp only
    rw [doCall_ok allOk 0 _ _ rfl]
    dsimp only
    by_cases hp : 0 < fd.photos.length
    · rw [propPhotosBlock_ok allOk pid fd _ hp rfl]
      simp [insRooms, delRoomsOf, updProperty, delPropPhotosOf, insPropPhotos,
        editDelPhotosPos, h0, hp]
      omega
    · rw [propPhotosBlock_empty allOk pid fd _ (by omega)]
      simp [insRooms, delRoomsOf, updProperty, delPropPhotosOf,
        editDelPhotosPos, h0, show fd.photos.length = 0 by omega]
      refine ⟨?_, by omega⟩
      rw [show fd.photos = [] from List.length_eq_zero.mp (by omega)]
      rfl
  · rw [roomsBlock_empty allOk pid fd _ (by omega)]
    dsimp only
    rw [doCall_ok allOk 0 _ _ rfl]
    dsimp only
    by_cases hp : 0 < fd.photos.length
    · rw [propPhotosBlock_ok allOk pid fd _ hp rfl]
      simp [delRoomsOf, updProperty, delPropPhotosOf, insPropPhotos,
        editDelPhotosPos, h0, hp, expRoomPhotoRows, totalRoomPhotos,
        mkRoomRows, jsMapIdx, jsMapIdxGo,
        show fd.rooms = [] from List.length_eq_zero.mp (by omega)]
    · rw [propPhotosBlock_empty allOk pid fd _ (by omega)]
      simp [delRoomsOf, updProperty, delPropPhotosOf, editDelPhotosPos, h0,
        expRoomPhotoRows, totalRoomPhotos, mkRoomRows, jsMapIdx, jsMapIdxGo,
        mkPropPhotoRows,
        show fd.rooms = [] from List.length_eq_zero.mp (by omega),
        show fd.photos = [] from List.length_eq_zero.mp (by omega)]

theorem filter_not_filter (p : α → Bool) (l : List α) :
    (l.filter (fun a => !(p a))).filter p = [] := by
  rw [List.filter_filter]
  rw [show (fun a => p a && !p a) = fun _ => false by
    funext a
    cases hp : p a <;> simp]
  exact List.filter_false _

theorem mkRoomRows_ids_ge (pid b : Nat) (rooms : List Room) :
    ∀ rw ∈ mkRoomRows pid b rooms, b ≤ rw.id := by
  intro rw hrw
  rcases jsMapIdxGo_mem _ _ _ _ hrw with ⟨a, i, _, _, hbe⟩
  rw [hbe]
  show b ≤ b + i
  omega

theorem mkRoomPhotoRows_ids_ge (rid b : Nat) (ps : List String) :
    ∀ ph ∈ mkRoomPhotoRows rid b ps, b ≤ ph.id := by
  intro ph hph
  rcases jsMapIdxGo_mem _ _ _ _ hph with ⟨a, i, _, _, hbe⟩
  rw [hbe]
  show b ≤ b + i
  omega

theorem expRoomPhotoRows_ids_ge (base ctr : Nat) (rooms : List Room) :
    ∀ ph ∈ expRoomPhotoRows base ctr rooms, ctr ≤ ph.id := by
  induction rooms generalizing base ctr with
  | nil => intro ph hph; cases hph
  | cons r rs ih =>
    intro ph hph
    rcases List.mem_append.1 hph with hph | hph
    · exact mkRoomPhotoRows_ids_ge base ctr r.photos ph hph
    · have := ih (base + 1) (ctr + r.photos.length) ph hph
      omega

theorem mkPropPhotoRows_ids_ge (pid b : Nat) (ps : List String) :
    ∀ ph ∈ mkPropPhotoRows pid b ps, b ≤ ph.id := by
  intro ph hph
  rcases jsMapIdxGo_mem _ _ _ _ hph with ⟨a, i, _, _, hbe⟩
  rw [hbe]
  show b ≤ b + i
  omega

theorem mkRoomRows_content (pid b : Nat) (rooms : List Room) :
    (mkRoomRows pid b rooms).map roomContent =
      rooms.map (fun rm => (rm.room_type, rm.bed_type, rm.max_guests,
        rm.units_available, rm.facilities, rm.price_lkr)) := by
  unfold mkRoomRows jsMapIdx
  rw [jsMapIdxGo_map]
  rw [show (fun (a : Room) (i : Nat) => roomContent (mkRoomRow (b + i) pid a)) =
    fun (a : Room) (_ : Nat) => (a.room_type, a.bed_type, a.max_guests,
      a.units_available, a.facilities, a.price_lkr) from rfl]
  exact jsMapIdxGo_noIdx _ 0 rooms

theorem mkPropPhotoRows_urls (pid b : Nat) (ps : List String) :
    (mkPropPhotoRows pid b ps).map (fun ph => ph.photo_url) = ps := by
  unfold mkPropPhotoRows jsMapIdx
  rw [jsMapIdxGo_map]
  rw [show (fun (a : String) (i : Nat) =>
    ({ id := b + i, property_id := pid, photo_url := a,
       sort_order := i } : PropPhotoRow).photo_url) = fun a _ => a from rfl]
  rw [jsMapIdxGo_noIdx]
  exact List.map_id _

/-- Claim C5 (corrected): loading an existing property and resubmitting it
unchanged in edit mode (all persistence calls succeeding) keeps the same
`properties.id`, leaves `status` untouched, and leaves every scalar field
equal to its pre-edit value except `updated_at`, which is refreshed —
provided the nullable columns (description, check-in/check-out times,
cancellation policy) are non-null, because rehydration rewrites a null as
the empty string.  Every room row and photo row is replaced by a
content-equal row carrying a newly generated identifier: child
identifiers are not preserved. -/
theorem claim_C5_amended_edit_roundtrip (userId now c0 k0 : Nat) (db0 : DB)
    (p : PropertyRow) (_hp : p ∈ db0.properties)
    (hd : p.description ≠ none) (hci : p.checkin_time ≠ none)
    (hco : p.checkout_time ≠ none) (hcp : p.cancellation_policy ≠ none)
    (hprices : ∀ r ∈ roomsOf db0 p.id, r.price_lkr.isNum = true)
    (hfr : ∀ r ∈ db0.property_rooms, r.id < c0)
    (hfp : ∀ ph ∈ db0.room_photos, ph.id < c0)
    (hfq : ∀ ph ∈ db0.property_photos, ph.id < c0) :
    (handleSubmit allOk userId now (some p.id) (loadPropertyData db0 p)
        { db := db0, ctr := c0, calls := k0 }).1.db.properties =
      db0.properties.map (fun q =>
        if q.id = p.id then applyUpdate q (loadPropertyData db0 p) now
        else q) ∧
    applyUpdate p (loadPropertyData db0 p) now = { p with updated_at := now } ∧
    (handleSubmit allOk userId now (some p.id) (loadPropertyData db0 p)
        { db := db0, ctr := c0, calls := k0 }).1.db.properties.map
        (fun q => q.id) =
      db0.properties.map (fun q => q.id) ∧
    roomsOf (handleSubmit allOk userId now (some p.id)
        (loadPropertyData db0 p)
        { db := db0, ctr := c0, calls := k0 }).1.db p.id =
      mkRoomRows p.id c0 (loadPropertyData db0 p).rooms ∧
    (roomsOf (handleSubmit allOk userId now (some p.id)
        (loadPropertyData db0 p)
        { db := db0, ctr := c0, calls := k0 }).1.db p.id).map roomContent =
      (roomsOf db0 p.id).map roomContent ∧
    (∀ rw ∈ roomsOf (handleSubmit allOk userId now (some p.id)
        (loadPropertyData db0 p)
        { db := db0, ctr := c0, calls := k0 }).1.db p.id,
      c0 ≤ rw.id ∧ ∀ old ∈ db0.property_rooms, rw.id ≠ old.id) ∧
    (handleSubmit allOk userId now (some p.id) (loadPropertyData db0 p)
        { db := db0, ctr := c0, calls := k0 }).1.db.room_photos =
      db0.room_photos.filter (fun ph =>
        !(((db0.property_rooms.filter (fun rw => rw.property_id = p.id)).map
            (fun rw => rw.id)).contains ph.room_id)) ++
        expRoomPhotoRows c0 (c0 + (loadPropertyData db0 p).rooms.length)
          (loadPropertyData db0 p).rooms ∧
    (∀ ph ∈ expRoomPhotoRows c0 (c0 + (loadPropertyData db0 p).rooms.length)
        (loadPropertyData db0 p).rooms,
      c0 ≤ ph.id ∧ ∀ old ∈ db0.room_photos, ph.id ≠ old.id) ∧
    (handleSubmit allOk userId now (some p.id) (loadPropertyData db0 p)
        { db := db0, ctr := c0, calls := k0 }).1.db.property_photos =
      db0.property_photos.filter (fun ph => !(ph.property_id = p.id)) ++
        mkPropPhotoRows p.id
          (c0 + (loadPropertyData db0 p).rooms.length +
            totalRoomPhotos (loadPropertyData db0 p).rooms)
          (loadPropertyData db0 p).photos ∧
    (mkPropPhotoRows p.id
        (c0 + (loadPropertyData db0 p).rooms.length +
          totalRoomPhotos (loadPropertyData db0 p).rooms)
        (loadPropertyData db0 p).photos).map (fun ph => ph.photo_url) =
      (propPhotosOf db0 p.id).map (fun ph => ph.photo_url) ∧
    (∀ ph ∈ mkPropPhotoRows p.id
        (c0 + (loadPropertyData db0 p).rooms.length +
          totalRoomPhotos (loadPropertyData db0 p).rooms)
        (loadPropertyData db0 p).photos,
      c0 ≤ ph.id ∧ ∀ old ∈ db0.property_photos, ph.id ≠ old.id) ∧
    (handleSubmit allOk userId now (some p.id) (loadPropertyData db0 p)
        { db := db0, ctr := c0, calls := k0 }).2 = [updatedToast] := by
  have hpok : pricesOk (loadPropertyData db0 p) = true := by
    rw [pricesOk, List.all_eq_true]
    intro rm hrm
    rcases List.mem_map.1 hrm with ⟨r, hr, hre⟩
    rw [← hre]
    exact hprices r hr
  have hred : handleSubmit allOk userId now (some p.id)
      (loadPropertyData db0 p) { db := db0, ctr := c0, calls := k0 } =
      ((runEdit allOk p.id now (loadPropertyData db0 p)
        { db := db0, ctr := c0, calls := k0 }).1,
       [(runEdit allOk p.id now (loadPropertyData db0 p)
        { db := db0, ctr := c0, calls := k0 }).2]) := by
    simp [handleSubmit, hpok]
  have hups : applyUpdate p (loadPropertyData db0 p) now =
      { p with updated_at := now } := by
    obtain ⟨d, hd2⟩ := Option.ne_none_iff_exists'.mp hd
    obtain ⟨ci, hci2⟩ := Option.ne_none_iff_exists'.mp hci
    obtain ⟨co, hco2⟩ := Option.ne_none_iff_exists'.mp hco
    obtain ⟨cp, hcp2⟩ := Option.ne_none_iff_exists'.mp hcp
    simp [applyUpdate, loadPropertyData, hd2, hci2, hco2, hcp2]
  rw [hred, runEdit_allOk]
  dsimp only
  have hrooms : roomsOf
      { properties := db0.properties.map (fun q =>
          if q.id = p.id then applyUpdate q (loadPropertyData db0 p) now
          else q),
        property_rooms :=
          db0.property_rooms.filter (fun rw => !(rw.property_id = p.id)) ++
            mkRoomRows p.id c0 (loadPropertyData db0 p).rooms,
        room_photos :=
          db0.room_photos.filter (fun ph =>
            !(((db0.property_rooms.filter
                (fun rw => rw.property_id = p.id)).map
                (fun rw => rw.id)).contains ph.room_id)) ++
            expRoomPhotoRows c0 (c0 + (loadPropertyData db0 p).rooms.length)
              (loadPropertyData db0 p).rooms,
        property_photos :=
          db0.property_photos.filter (fun ph => !(ph.property_id = p.id)) ++
            mkPropPhotoRows p.id
              (c0 + (loadPropertyData db0 p).rooms.length +
                totalRoomPhotos (loadPropertyData db0 p).rooms)
              (loadPropertyData db0 p).photos } p.id =
      mkRoomRows p.id c0 (loadPropertyData db0 p).rooms := by
    unfold roomsOf
    dsimp only
    rw [List.filter_append]
    rw [filter_not_filter (fun rw => decide (rw.property_id = p.id))
      db0.property_rooms]
    rw [List.nil_append]
    apply List.filter_eq_self.2
    intro rw hrw
    simp [mkRoomRows_pid p.id c0 _ rw hrw]
  refine ⟨rfl, hups, ?_, hrooms, ?_, ?_, rfl, ?_, rfl, ?_, ?_, rfl⟩
  · exact updProperty_ids p.id now (loadPropertyData db0 p) db0.properties
  · rw [hrooms, mkRoomRows_content]
    show _ = (roomsOf db0 p.id).map roomContent
    conv_lhs => rw [show (loadPropertyData db0 p).rooms =
      (roomsOf db0 p.id).map
        (fun r => roomToForm r (roomPhotosOf db0 r.id)) from rfl]
    rw [List.map_map]
    apply List.map_congr_left
    intro r _
    rfl
  · intro rw hrw
    rw [hrooms] at hrw
    refine ⟨mkRoomRows_ids_ge p.id c0 _ rw hrw, ?_⟩
    intro old hold
    have h1 := mkRoomRows_ids_ge p.id c0 _ rw hrw
    have h2 := hfr old hold
    omega
  · intro ph hph
    have h1 := expRoomPhotoRows_ids_ge c0
      (c0 + (loadPropertyData db0 p).rooms.length) _ ph hph
    refine ⟨by omega, ?_⟩
    intro old hold
    have h2 := hfp old hold
    omega
  · rw [mkPropPhotoRows_urls]
    rfl
  · intro ph hph
    have h1 := mkPropPhotoRows_ids_ge p.id _ _ ph hph
    refine ⟨by omega, ?_⟩
    intro old hold
    have h2 := hfq old hold
    omega

/-- Counterexample for C5 as stated: a stored property whose nullable
`description` column is null does not keep its scalar fields across an
unchanged edit round trip — rehydration turns the null into `''` and the
resubmission writes `''` back, so the post-edit description is the empty
string, not null. -/
theorem claim_C5_counterexample :
    cexProp.description = none ∧
    (handleSubmit allOk 9 200 (some 0) (loadPropertyData cexDb cexProp)
      { db := cexDb, ctr := 4, calls := 0 }).1.db.properties.map
      (fun q => q.description) = [some ""] ∧
    (some "" : Option String) ≠ none := by
  refine ⟨by decide, by decide, by decide⟩

/-- Witness for C5 (amended) on a stored property with non-null nullable
columns. -/
theorem claim_C5_witness :
    witProp ∈ witDb.properties ∧
    applyUpdate witProp (loadPropertyData witDb witProp) 200 =
      { witProp with updated_at := 200 } := by
  refine ⟨by decide, ?_⟩
  exact (claim_C5_amended_edit_roundtrip 9 200 4 0 witDb witProp (by decide)
    (by decide) (by decide) (by decide) (by decide) (by decide) (by decide)
    (by decide) (by decide)).2.1
